import Mathlib

/-!
Verification of save-to-disk: reorder buffer, frame reassembler and video packetizer.

A shallow embedding of `src/main.go`:

* `RTPJitter` with `NewJitter`, `Add`, `GetOrdered` (lines 128-194),
* `RTPDepacketizer.AddPacket` (lines 196-228),
* the per-access-unit body of `Recorder.PushVideo` (lines 380-422).

Machine integers are natural numbers with explicit reduction: `uint16`
arithmetic is taken modulo `65536`, `uint32` arithmetic modulo `4294967296`.
Go run-time panics (integer division by zero, index out of range, nil pointer
dereference) are explicit `Fault` results.  The `for` loop of `GetOrdered` has
no bound in the source, so it is run with a step budget: `none` means the
budget was used up before the loop left.
-/

namespace SaveToDisk

/-! ## Data model -/

/-- The fields of `rtp.Packet` that the program reads. -/
structure Packet where
  SequenceNumber : Nat
  Timestamp : Nat
  Marker : Bool
  Payload : List Nat
deriving DecidableEq

/-- Go run-time panics that the modelled code can raise. -/
inductive Fault where
  | divideByZero
  | indexOutOfRange
  | nilDereference
deriving DecidableEq

/-- Result of a call that may panic. -/
inductive Outcome (α : Type) where
  | ok (a : α)
  | fault (f : Fault)
deriving DecidableEq

/-- Modulus of `uint16` arithmetic. -/
def U16 : Nat := 65536

/-- Modulus of `uint32` arithmetic. -/
def U32 : Nat := 4294967296

/-- The struct `RTPJitter` (lines 128-141).  `packets` holds pointers, `none`
is the nil pointer. -/
structure RTPJitter where
  clockrate : Nat
  cap : Nat
  packetsCount : Nat
  nextSeqNum : Nat
  packets : List (Option Packet)
  packetsSeqs : List Nat
  lastTime : Nat
  nextTime : Nat
  maxWaitTime : Nat
  clockInMS : Nat
deriving DecidableEq

/-- `NewJitter` (lines 144-153): both slices are allocated with `cap` zero
values (nil pointers, sequence number 0). -/
def NewJitter (cap clockrate : Nat) : RTPJitter :=
  { clockrate := clockrate
    cap := cap
    packetsCount := 0
    nextSeqNum := 0
    packets := List.replicate cap none
    packetsSeqs := List.replicate cap 0
    lastTime := 0
    nextTime := 0
    maxWaitTime := 100
    clockInMS := clockrate / 1000 }

/-- `RTPJitter.Add` (lines 155-169).  The Go function always returns `true`;
the model returns the updated buffer. -/
def RTPJitter.Add (self : RTPJitter) (packet : Packet) : Outcome RTPJitter :=
  if self.cap = 0 then .fault .divideByZero
  else
    let idx := packet.SequenceNumber % self.cap
    if idx < self.packets.length then
      if idx < self.packetsSeqs.length then
        let first := self.packetsCount = 0
        .ok { self with
          packets := self.packets.set idx (some packet)
          packetsSeqs := self.packetsSeqs.set idx packet.SequenceNumber
          nextSeqNum := if first then (packet.SequenceNumber + (U16 - 1)) % U16 else self.nextSeqNum
          nextTime := if first then packet.Timestamp else self.nextTime
          lastTime := packet.Timestamp
          packetsCount := (self.packetsCount + 1) % U32 }
      else .fault .indexOutOfRange
    else .fault .indexOutOfRange

/-- `RTPJitter.SetMaxWaitTime` (lines 171-173). -/
def RTPJitter.SetMaxWaitTime (self : RTPJitter) (wait : Nat) : RTPJitter :=
  { self with maxWaitTime := wait }

/-- The loop variables of `GetOrdered`: the receiver, `nextSeq` and `out`. -/
structure LoopState where
  self : RTPJitter
  nextSeq : Nat
  out : List Packet
deriving DecidableEq

/-- What one pass through the body of the `for` loop does. -/
inductive LoopStep where
  | next (s : LoopState)
  | leave (self : RTPJitter) (out : List Packet)
  | crash (f : Fault)
deriving DecidableEq

/-- The wait test of line 181, in `uint32` arithmetic:
`(self.lastTime - self.nextTime) > self.maxWaitTime*self.clockInMS`. -/
def RTPJitter.waitExceeded (self : RTPJitter) : Bool :=
  decide ((self.maxWaitTime * self.clockInMS) % U32 < (self.lastTime + U32 - self.nextTime) % U32)

/-- One pass of the loop body (lines 178-191). -/
def loopBody (s : LoopState) : LoopStep :=
  if s.self.cap = 0 then .crash .divideByZero
  else
    let idx := s.nextSeq % s.self.cap
    match s.self.packetsSeqs[idx]? with
    | none => .crash .indexOutOfRange
    | some held =>
      if held ≠ s.nextSeq then
        if s.self.waitExceeded then
          .next { s with nextSeq := (s.nextSeq + 1) % U16 }
        else
          .leave s.self s.out
      else
        match s.self.packets[idx]? with
        | none => .crash .indexOutOfRange
        | some none => .crash .nilDereference
        | some (some packet) =>
          .next { self := { s.self with nextTime := packet.Timestamp, nextSeqNum := s.nextSeq }
                  nextSeq := (s.nextSeq + 1) % U16
                  out := s.out ++ [packet] }

/-- The `for` loop of `GetOrdered` run for at most `fuel` passes; `none` when
the loop has not left after `fuel` passes. -/
def loopRun : Nat → LoopState → Option (Outcome (RTPJitter × List Packet))
  | 0, _ => none
  | fuel + 1, s =>
    match loopBody s with
    | .next s' => loopRun fuel s'
    | .leave self out => some (.ok (self, out))
    | .crash f => some (.fault f)

/-- `RTPJitter.GetOrdered` (lines 175-194) with a bound on the number of loop
passes. -/
def RTPJitter.GetOrdered (fuel : Nat) (self : RTPJitter) :
    Option (Outcome (RTPJitter × List Packet)) :=
  loopRun fuel { self := self, nextSeq := (self.nextSeqNum + 1) % U16, out := [] }

/-- `Add` followed by `GetOrdered`, as `PushVideo` and `PushAudio` do for every
packet (lines 343-345 and 372-373). -/
def RTPJitter.push (fuel : Nat) (self : RTPJitter) (packet : Packet) :
    Option (Outcome (RTPJitter × List Packet)) :=
  match self.Add packet with
  | .fault f => some (.fault f)
  | .ok j => j.GetOrdered fuel

/-- Feed the packets in arrival order, polling after each `Add`; the result is
the final buffer and the concatenation of all polled outputs. -/
def RTPJitter.pushAll (fuel : Nat) : RTPJitter → List Packet →
    Option (Outcome (RTPJitter × List Packet))
  | self, [] => some (.ok (self, []))
  | self, p :: ps =>
    match self.push fuel p with
    | none => none
    | some (.fault f) => some (.fault f)
    | some (.ok (j, out)) =>
      match RTPJitter.pushAll fuel j ps with
      | none => none
      | some (.fault f) => some (.fault f)
      | some (.ok (j', outs)) => some (.ok (j', out ++ outs))

/-- Add all packets in arrival order without polling. -/
def RTPJitter.addAll : RTPJitter → List Packet → Outcome RTPJitter
  | self, [] => .ok self
  | self, p :: ps =>
    match self.Add p with
    | .fault f => .fault f
    | .ok j => RTPJitter.addAll j ps

/-- A packet with the given sequence number and timestamp, no marker, empty payload. -/
def mkPacket (seq ts : Nat) : Packet :=
  { SequenceNumber := seq, Timestamp := ts, Marker := false, Payload := [] }

/-! ## Frame reassembler -/

/-- The struct `RTPDepacketizer` (lines 196-200).  `U` is the state of the
`codecs.H264Packet` unmarshaller of the pion library, which is outside the
repository. -/
structure RTPDepacketizer (U : Type) where
  frame : List Nat
  timestamp : Nat
  h264Unmarshal : U

/-- `NewDepacketizer` (lines 202-207); `u0` is a fresh `codecs.H264Packet`. -/
def NewDepacketizer {U : Type} (u0 : U) : RTPDepacketizer U :=
  { frame := [], timestamp := 0, h264Unmarshal := u0 }

/-- `RTPDepacketizer.AddPacket` (lines 209-228).  `Unmarshal` is the library
call `h264Unmarshal.Unmarshal`, whose error is dropped by the source: it maps
the unmarshaller state and a payload to the returned bytes and the new state.
The Go result `(nil, 0)` is `none`; on a marker packet the returned slice is
never nil. -/
def RTPDepacketizer.AddPacket {U : Type} (Unmarshal : U → List Nat → List Nat × U)
    (self : RTPDepacketizer U) (pkt : Packet) :
    RTPDepacketizer U × Option (List Nat × Nat) :=
  let ts := pkt.Timestamp
  let frame0 := if self.timestamp ≠ ts then [] else self.frame
  let r := Unmarshal self.h264Unmarshal pkt.Payload
  let frame1 := frame0 ++ r.1
  let self1 : RTPDepacketizer U := { frame := frame1, timestamp := ts, h264Unmarshal := r.2 }
  if !pkt.Marker then (self1, none) else (self1, some (frame1, ts))

/-- Feed packets to `AddPacket` in order, collecting what each call returns. -/
def RTPDepacketizer.addPackets {U : Type} (Unmarshal : U → List Nat → List Nat × U) :
    RTPDepacketizer U → List Packet → RTPDepacketizer U × List (Option (List Nat × Nat))
  | self, [] => (self, [])
  | self, p :: ps =>
    let r := self.AddPacket Unmarshal p
    let rs := RTPDepacketizer.addPackets Unmarshal r.1 ps
    (rs.1, r.2 :: rs.2)

/-- The unwrapped payloads of the packets, concatenated in arrival order, and
the unmarshaller state after them. -/
def unwrapAll {U : Type} (Unmarshal : U → List Nat → List Nat × U) :
    U → List Packet → List Nat × U
  | u, [] => ([], u)
  | u, p :: ps =>
    let r := Unmarshal u p.Payload
    let rs := unwrapAll Unmarshal r.2 ps
    (r.1 ++ rs.1, rs.2)

/-- A marker-terminated group: the packets before the marker packet, and the
marker packet. -/
structure Group where
  body : List Packet
  last : Packet

/-- The packets of a group in arrival order. -/
def Group.packets (g : Group) : List Packet := g.body ++ [g.last]

/-- A group is well formed when only its last packet carries the marker and all
its packets carry the timestamp of the last one. -/
def Group.WellFormed (g : Group) : Prop :=
  g.last.Marker = true ∧ ∀ p ∈ g.body, p.Marker = false ∧ p.Timestamp = g.last.Timestamp

/-- What the claim expects `AddPacket` to return over a sequence of groups:
nothing on the packets before a marker, and on the marker packet the unwrapped
payloads of that group only, with the group's timestamp. -/
def expectedUnits {U : Type} (Unmarshal : U → List Nat → List Nat × U) :
    U → List Group → List (Option (List Nat × Nat))
  | _, [] => []
  | u, g :: gs =>
    let r := unwrapAll Unmarshal u g.packets
    List.replicate g.body.length none ++ [some (r.1, g.last.Timestamp)]
      ++ expectedUnits Unmarshal r.2 gs

/-- The accumulator a packet with timestamp `t` is appended to (lines 213-215). -/
def RTPDepacketizer.startFrame {U : Type} (self : RTPDepacketizer U) (t : Nat) : List Nat :=
  if self.timestamp ≠ t then [] else self.frame

/-- A stateless stand-in for the pion unmarshaller on single-NAL-unit payloads:
the payload behind a four-byte start code. -/
def prefixStartCode (u : Unit) (payload : List Nat) : List Nat × Unit :=
  ([0, 0, 0, 1] ++ payload, u)

/-- A marker packet. -/
def mkMarker (seq ts : Nat) (payload : List Nat) : Packet :=
  { SequenceNumber := seq, Timestamp := ts, Marker := true, Payload := payload }

/-- A packet without marker. -/
def mkFragment (seq ts : Nat) (payload : List Nat) : Packet :=
  { SequenceNumber := seq, Timestamp := ts, Marker := false, Payload := payload }

/-- Two one-packet groups that carry the same timestamp. -/
def sameStampGroups : List Group :=
  [{ body := [], last := mkMarker 1 3000 [101] }, { body := [], last := mkMarker 2 3000 [102] }]

/-- One group whose first packet carries an older timestamp than its marker
packet (the marker packet of the older frame was lost). -/
def mixedStampGroups : List Group :=
  [{ body := [mkFragment 1 3000 [101]], last := mkMarker 3 6000 [102] }]

/-- Two frames of two packets each, with different timestamps. -/
def twoFrames : List Group :=
  [{ body := [mkFragment 1 3000 [101]], last := mkMarker 2 3000 [102] },
   { body := [mkFragment 3 6000 [103]], last := mkMarker 4 6000 [104] }]

/-! ## Video packetizer (`Recorder.PushVideo`) -/

/-- The `av.Packet` type tags the program uses. -/
inductive PacketType where
  | H264DecoderConfig
  | H264
  | AACDecoderConfig
  | AAC
deriving DecidableEq

/-- The fields of `av.Packet` handed to `muxer.WritePacket` that the program
sets per packet; `PktType` is the Go field `Type`.  The codec pointers `H264`
and `AAC` are left out. -/
structure AvPacket where
  PktType : PacketType
  IsKeyFrame : Bool
  Time : Nat
  CTime : Nat
  Data : List Nat
deriving DecidableEq

/-- The calls into the joy5 `h264` package, which is outside the repository. -/
structure H264Lib where
  Codec : Type
  NewCodec : Codec
  SplitNALUs : List Nat → List (List Nat)
  NALUType : List Nat → Nat
  AddSPSPPS : Codec → List Nat → Codec
  ToConfig : Codec → List Nat
  FillNALUsAVCC : List (List Nat) → List Nat

/-- NAL unit type code of a non-IDR slice (`h264.NALU_NONIDR`). -/
def NALU_NONIDR : Nat := 1

/-- NAL unit type code of an IDR slice (`h264.NALU_IDR`). -/
def NALU_IDR : Nat := 5

/-- NAL unit type code of supplemental enhancement information (`h264.NALU_SEI`). -/
def NALU_SEI : Nat := 6

/-- NAL unit type code of a sequence parameter set (`h264.NALU_SPS`). -/
def NALU_SPS : Nat := 7

/-- NAL unit type code of a picture parameter set (`h264.NALU_PPS`). -/
def NALU_PPS : Nat := 8

/-- The part of `Recorder` that `PushVideo` updates per access unit: the codec
behind `h264decodeConfig.H264` and the bytes `h264decodeConfig.Data`. -/
structure DecodeConfig (L : H264Lib) where
  H264 : L.Codec
  Data : List Nat

/-- The decoder-configuration packet of `newRecorder` (lines 298-302) with the
current `Data`. -/
def DecodeConfig.packet {L : H264Lib} (c : DecodeConfig L) : AvPacket :=
  { PktType := .H264DecoderConfig, IsKeyFrame := true, Time := 0, CTime := 0, Data := c.Data }

/-- `h264decodeConfig` as `newRecorder` makes it (lines 298-302). -/
def newDecodeConfig (L : H264Lib) : DecodeConfig L :=
  { H264 := L.NewCodec, Data := [] }

/-- The variables of the loop over the NAL units of one access unit (lines
382-406): the recorder's decode config, the packets written so far, `nalus_`
and `keyframe`. -/
structure UnitLoop (L : H264Lib) where
  config : DecodeConfig L
  written : List AvPacket
  nalus_ : List (List Nat)
  keyframe : Bool

/-- Length of the buffer `make([]byte, 5000)` that line 392 allocates for the
configuration record. -/
def configBufferSize : Nat := 5000

/-- One pass of the `switch` of lines 387-405.  In the PPS case the record is
written by `ToConfig` into a buffer of 5000 bytes, which is then re-sliced to
`Data[0:len]` (lines 392-395): `L.ToConfig` gives the bytes of the record, and
a record longer than the buffer is a Go panic (a write or a slice bound beyond
the buffer). -/
def naluStep (L : H264Lib) (st : UnitLoop L) (nalu : List Nat) : Outcome (UnitLoop L) :=
  if L.NALUType nalu = NALU_SPS then
    .ok { st with config := { st.config with H264 := L.AddSPSPPS st.config.H264 nalu } }
  else if L.NALUType nalu = NALU_PPS then
    if (L.ToConfig (L.AddSPSPPS st.config.H264 nalu)).length ≤ configBufferSize then
      .ok { st with config := { H264 := L.AddSPSPPS st.config.H264 nalu
                                Data := L.ToConfig (L.AddSPSPPS st.config.H264 nalu) } }
    else .fault .indexOutOfRange
  else if L.NALUType nalu = NALU_IDR then
    .ok { st with written := st.written ++ [st.config.packet]
                  nalus_ := st.nalus_ ++ [nalu]
                  keyframe := true }
  else if L.NALUType nalu = NALU_NONIDR then
    .ok { st with nalus_ := st.nalus_ ++ [nalu], keyframe := false }
  else .ok st

/-- The loop of lines 385-406 over the NAL units: the loop variables when the
loop stops, and the panic that stopped it, if any (then the variables are those
before the pass that panicked). -/
def runUnit (L : H264Lib) : UnitLoop L → List (List Nat) → UnitLoop L × Option Fault
  | st, [] => (st, none)
  | st, n :: ns =>
    match naluStep L st n with
    | .fault f => (st, some f)
    | .ok st1 => runUnit L st1 ns

/-- What processing one access unit leaves behind: either it completes, with
the updated decode config and the packets passed to `muxer.WritePacket` in
order, or it panics after the listed packets were written. -/
inductive UnitResult (L : H264Lib) where
  | done (config : DecodeConfig L) (written : List AvPacket)
  | panicked (written : List AvPacket) (f : Fault)

/-- The packets passed to `muxer.WritePacket` for the unit, in order. -/
def UnitResult.written {L : H264Lib} : UnitResult L → List AvPacket
  | .done _ ws => ws
  | .panicked ws _ => ws

/-- The panic raised while processing the unit, if any. -/
def UnitResult.fault {L : H264Lib} : UnitResult L → Option Fault
  | .done _ _ => none
  | .panicked _ f => some f

/-- Lines 382-422 for one split access unit.  `duration` is the value of
`time.Since(r.startTime)` at line 412. -/
def processNALUs (L : H264Lib) (config : DecodeConfig L) (nalus : List (List Nat))
    (duration : Nat) : UnitResult L :=
  match runUnit L { config := config, written := [], nalus_ := [], keyframe := false } nalus with
  | (st, some f) => .panicked st.written f
  | (st, none) =>
    if st.nalus_.length = 0 then .done st.config st.written
    else
      .done st.config
        (st.written ++ [{ PktType := .H264, IsKeyFrame := st.keyframe, Time := duration
                          CTime := duration, Data := L.FillNALUsAVCC st.nalus_ }])

/-- Lines 380-422 for one completed access unit. -/
def pushAccessUnit (L : H264Lib) (config : DecodeConfig L) (frame : List Nat)
    (duration : Nat) : UnitResult L :=
  processNALUs L config (L.SplitNALUs frame) duration

/-- The loop variables after a pass of the `switch` that does not panic (the
`.ok` results of `naluStep`). -/
def naluEffect (L : H264Lib) (st : UnitLoop L) (nalu : List Nat) : UnitLoop L :=
  if L.NALUType nalu = NALU_SPS then
    { st with config := { st.config with H264 := L.AddSPSPPS st.config.H264 nalu } }
  else if L.NALUType nalu = NALU_PPS then
    { st with config := { H264 := L.AddSPSPPS st.config.H264 nalu
                          Data := L.ToConfig (L.AddSPSPPS st.config.H264 nalu) } }
  else if L.NALUType nalu = NALU_IDR then
    { st with written := st.written ++ [st.config.packet]
              nalus_ := st.nalus_ ++ [nalu]
              keyframe := true }
  else if L.NALUType nalu = NALU_NONIDR then
    { st with nalus_ := st.nalus_ ++ [nalu], keyframe := false }
  else st

/-- Every configuration record that the unit makes the loop rebuild (one at
each PPS, from the codec with the parameter sets added so far) fits the
5000-byte buffer. -/
def recordsFit (L : H264Lib) : L.Codec → List (List Nat) → Bool
  | _, [] => true
  | c, n :: ns =>
    if L.NALUType n = NALU_SPS then recordsFit L (L.AddSPSPPS c n) ns
    else if L.NALUType n = NALU_PPS then
      decide ((L.ToConfig (L.AddSPSPPS c n)).length ≤ configBufferSize)
        && recordsFit L (L.AddSPSPPS c n) ns
    else recordsFit L c ns

/-- Whether a NAL unit is a slice (IDR or non-IDR). -/
def isSlice (L : H264Lib) (nalu : List Nat) : Bool :=
  L.NALUType nalu = NALU_IDR || L.NALUType nalu = NALU_NONIDR

/-- Whether a NAL unit is a parameter set (SPS or PPS). -/
def isParameterSet (L : H264Lib) (nalu : List Nat) : Bool :=
  L.NALUType nalu = NALU_SPS || L.NALUType nalu = NALU_PPS

/-- The codec after all parameter sets of the unit were added, in order. -/
def addParameterSets (L : H264Lib) (codec : L.Codec) (nalus : List (List Nat)) : L.Codec :=
  (nalus.filter (isParameterSet L)).foldl L.AddSPSPPS codec

/-- A stand-in for the joy5 `h264` package: the type code is the low five bits
of the first byte, the codec remembers the latest SPS and PPS, the
configuration record lists them, an access unit is taken as one NAL unit, and
the AVCC form prefixes each unit with its length. -/
def toyLib : H264Lib :=
  { Codec := List Nat × List Nat
    NewCodec := ([], [])
    SplitNALUs := fun frame => [frame]
    NALUType := fun nalu => nalu.headD 0 % 32
    AddSPSPPS := fun c nalu => if nalu.headD 0 % 32 = 7 then (nalu, c.2) else (c.1, nalu)
    ToConfig := fun c => c.1 ++ c.2
    FillNALUsAVCC := fun nalus => nalus.flatMap (fun n => n.length :: n) }

/-- An IDR slice unit (first byte 0x65). -/
def idrUnit : List Nat := [101]

/-- A non-IDR slice unit (first byte 0x41). -/
def nonIdrUnit : List Nat := [65]

/-- A sequence parameter set unit (first byte 0x67). -/
def spsUnit : List Nat := [103]

/-- A picture parameter set unit (first byte 0x68). -/
def ppsUnit : List Nat := [104]

/-- A picture parameter set unit of 5001 bytes. -/
def bigPpsUnit : List Nat := 104 :: List.replicate 5000 0

/-! ## Concrete inputs -/

/-- The buffer of `newRecorder` for the video track (line 313). -/
def videoJitter : RTPJitter := NewJitter 512 90000

/-- Buffer contents after the listed packets were stored in a fresh buffer of
capacity `cap`, later entries of the list stored later. -/
def slotsOf (cap : Nat) : List Packet → List (Option Packet)
  | [] => List.replicate cap none
  | p :: ps => (slotsOf cap ps).set (p.SequenceNumber % cap) (some p)

/-- Sequence numbers recorded per slot after the listed packets were stored. -/
def seqsOf (cap : Nat) : List Packet → List Nat
  | [] => List.replicate cap 0
  | p :: ps => (seqsOf cap ps).set (p.SequenceNumber % cap) p.SequenceNumber

/-- A buffer made by `NewJitter cap clockrate` described by its fields:
`stored` lists the packets stored so far, most recent first. -/
def bufState (cap clockrate : Nat) (stored : List Packet)
    (count nextSeqNum lastTime nextTime : Nat) : RTPJitter :=
  { clockrate := clockrate
    cap := cap
    packetsCount := count
    nextSeqNum := nextSeqNum
    packets := slotsOf cap stored
    packetsSeqs := seqsOf cap stored
    lastTime := lastTime
    nextTime := nextTime
    maxWaitTime := 100
    clockInMS := clockrate / 1000 }

/-- The wait budget of a buffer made by `NewJitter`, in clock units, as line 181
computes it. -/
def budget (clockrate : Nat) : Nat := (100 * (clockrate / 1000)) % U32

/-- The sequence number recorded in slot `i` after the listed packets were
stored (most recent first); 0 when the slot was never written. -/
def heldSeq (cap : Nat) : List Packet → Nat → Nat
  | [], _ => 0
  | p :: ps, i => if p.SequenceNumber % cap = i then p.SequenceNumber else heldSeq cap ps i

/-- The pointer in slot `i` after the listed packets were stored (most recent
first); nil when the slot was never written. -/
def heldPacket (cap : Nat) : List Packet → Nat → Option Packet
  | [], _ => none
  | p :: ps, i => if p.SequenceNumber % cap = i then some p else heldPacket cap ps i

/-- First packet of a run that crosses the 16-bit boundary. -/
def w65534 : Packet := mkPacket 65534 0

/-- Second packet of the run: the last sequence number before the wrap. -/
def w65535 : Packet := mkPacket 65535 3000

/-- Third packet of the run: sequence number 0 after the wrap. -/
def w0 : Packet := mkPacket 0 6000

/-- Fourth packet of the run. -/
def w1 : Packet := mkPacket 1 9000

/-- Spec scenario, first arrival: sequence number 5, timestamp 0. -/
def s5 : Packet := mkPacket 5 0

/-- Spec scenario, second arrival: sequence number 3, timestamp 3000. -/
def s3 : Packet := mkPacket 3 3000

/-- Spec scenario, third arrival: sequence number 4, timestamp 6000. -/
def s4 : Packet := mkPacket 4 6000

/-- Spec scenario, fourth arrival: sequence number 6, timestamp 9000. -/
def s6 : Packet := mkPacket 6 9000

/-- A stream that starts at sequence number 0, one packet every 3000 clock
units: packet 0. -/
def f0 : Packet := mkPacket 0 0

/-- Packet 1 of that stream. -/
def f1 : Packet := mkPacket 1 3000

/-- Packet 2 of that stream. -/
def f2 : Packet := mkPacket 2 6000

/-- Packet 4 of that stream. -/
def f4 : Packet := mkPacket 4 12000

/-- The packet before a withheld sequence number 11. -/
def g10 : Packet := mkPacket 10 0

/-- The successor of the withheld number, more than the budget after `g10`. -/
def g12 : Packet := mkPacket 12 12000

/-- The packet after `g12`, within the budget of `g10`. -/
def g13 : Packet := mkPacket 13 9000

/-- Loop states of the third poll after the arrivals (0,0), (2,6000), (1,3000):
the slots hold the packets 0, 1, 2, `lastTime` is 3000, and `nextTime` is the
timestamp of the packet released last (0 before packet 1, 3000 before packet 2,
6000 everywhere else). -/
def spinning (s : LoopState) : Prop :=
  s.nextSeq < 65536 ∧ ∃ ns nt, s.self = bufState 512 90000 [f1, f2, f0] 3 ns 3000 nt ∧
    ((s.nextSeq = 1 ∧ nt = 0) ∨ (s.nextSeq = 2 ∧ nt = 3000) ∨
      (s.nextSeq ≠ 1 ∧ s.nextSeq ≠ 2 ∧ nt = 6000))

/-- The stored packets carry pairwise distinct sequence numbers of the run
`s, ..., s+N-1`, and the run fits the capacity and stays below 65535. -/
def InWindow (cap s N : Nat) (stored : List Packet) : Prop :=
  cap ≠ 0 ∧ N ≤ cap ∧ s + N ≤ 65535 ∧
  (∀ p ∈ stored, s ≤ p.SequenceNumber ∧ p.SequenceNumber < s + N) ∧
  (stored.map Packet.SequenceNumber).Nodup

/-- Arrival-order condition on timestamps: `b` arrives after `a`, and the
`uint32` difference `b.Timestamp - a.Timestamp` is within the wait budget. -/
def withinBudget (clockrate : Nat) (a b : Packet) : Prop :=
  (b.Timestamp + U32 - a.Timestamp) % U32 ≤ budget clockrate

/-- A run 10, 11, 12 with one packet every 3000 clock units: packet 10. -/
def e10 : Packet := mkPacket 10 0

/-- Packet 11 of that run. -/
def e11 : Packet := mkPacket 11 3000

/-- Packet 12 of that run. -/
def e12 : Packet := mkPacket 12 6000

/-- Two packets of one frame (same timestamp), sequence numbers 1 and 2. -/
def c1 : Packet := mkPacket 1 0

/-- The second packet of that frame. -/
def c2 : Packet := mkPacket 2 0

/-- Three packets 10, 11, 12 with timestamps that grow in arrival order 10, 12, 11. -/
def r10 : Packet := mkPacket 10 0

/-- Arrives second. -/
def r12 : Packet := mkPacket 12 1000

/-- Arrives third. -/
def r11 : Packet := mkPacket 11 2000

/-! # Proofs -/

set_option maxRecDepth 100000

/-! ## Step budget -/

theorem loopRun_mono (fuel k : Nat) (s : LoopState) (r : Outcome (RTPJitter × List Packet))
    (h : loopRun fuel s = some r) : loopRun (fuel + k) s = some r := by
  induction fuel generalizing s with
  | zero => simp [loopRun] at h
  | succ n ih =>
    have e : n + 1 + k = (n + k) + 1 := by omega
    rw [e]
    simp only [loopRun] at h ⊢
    cases hb : loopBody s with
    | next s' => rw [hb] at h; simpa using ih s' h
    | leave j out => rw [hb] at h; simpa using h
    | crash f => rw [hb] at h; simpa using h

theorem GetOrdered_mono (fuel k : Nat) (j : RTPJitter) (r : Outcome (RTPJitter × List Packet))
    (h : j.GetOrdered fuel = some r) : j.GetOrdered (fuel + k) = some r :=
  loopRun_mono fuel k _ r h

theorem push_mono (fuel k : Nat) (j : RTPJitter) (p : Packet)
    (r : Outcome (RTPJitter × List Packet))
    (h : j.push fuel p = some r) : j.push (fuel + k) p = some r := by
  unfold RTPJitter.push at h ⊢
  cases ha : j.Add p with
  | fault f => rw [ha] at h; simpa using h
  | ok j1 => rw [ha] at h; simpa using GetOrdered_mono fuel k j1 r h

theorem pushAll_mono (fuel k : Nat) (ps : List Packet) (j : RTPJitter)
    (r : Outcome (RTPJitter × List Packet))
    (h : j.pushAll fuel ps = some r) : j.pushAll (fuel + k) ps = some r := by
  induction ps generalizing j r with
  | nil => simpa [RTPJitter.pushAll] using h
  | cons p ps ih =>
    simp only [RTPJitter.pushAll] at h ⊢
    cases hp : j.push fuel p with
    | none => rw [hp] at h; simp at h
    | some o =>
      rw [hp] at h
      rw [push_mono fuel k j p o hp]
      cases o with
      | fault f => simpa using h
      | ok a =>
        obtain ⟨j1, out⟩ := a
        simp only at h ⊢
        cases hq : j1.pushAll fuel ps with
        | none => rw [hq] at h; simp at h
        | some o2 =>
          rw [hq] at h
          rw [ih j1 o2 hq]
          exact h



theorem loopRun_next (fuel : Nat) (s s' : LoopState) (h : loopBody s = .next s') :
    loopRun (fuel + 1) s = loopRun fuel s' := by
  simp [loopRun, h]

theorem loopRun_leave (fuel : Nat) (s : LoopState) (j : RTPJitter) (out : List Packet)
    (h : loopBody s = .leave j out) : loopRun (fuel + 1) s = some (.ok (j, out)) := by
  simp [loopRun, h]

theorem loopRun_crash (fuel : Nat) (s : LoopState) (f : Fault)
    (h : loopBody s = .crash f) : loopRun (fuel + 1) s = some (.fault f) := by
  simp [loopRun, h]

theorem loopBody_skip (s : LoopState) (held : Nat) (hcap : s.self.cap ≠ 0)
    (hheld : s.self.packetsSeqs[s.nextSeq % s.self.cap]? = some held)
    (hne : held ≠ s.nextSeq) (hw : s.self.waitExceeded = true) :
    loopBody s = .next { s with nextSeq := (s.nextSeq + 1) % U16 } := by
  simp [loopBody, hcap, hheld, hne, hw]

theorem loopRun_skip (j : RTPJitter) (out : List Packet) (hcap : j.cap ≠ 0)
    (hw : j.waitExceeded = true) (k : Nat) :
    ∀ (n fuel : Nat), n + k < U16 →
      (∀ i, i < k → ∃ held, j.packetsSeqs[(n + i) % j.cap]? = some held ∧ held ≠ n + i) →
      loopRun (fuel + k) { self := j, nextSeq := n, out := out }
        = loopRun fuel { self := j, nextSeq := n + k, out := out } := by
  induction k with
  | zero => intro n fuel _ _; rfl
  | succ k ih =>
    intro n fuel hn hall
    obtain ⟨held, h1, h2⟩ := hall 0 (by omega)
    have e : fuel + (k + 1) = (fuel + k) + 1 := by omega
    rw [e, loopRun_next (fuel + k) _ _
      (loopBody_skip { self := j, nextSeq := n, out := out } held hcap (by simpa using h1)
        (by simpa using h2) hw)]
    have hm : (n + 1) % U16 = n + 1 := Nat.mod_eq_of_lt (by omega)
    simp only [hm]
    have := ih (n + 1) fuel (by omega) (fun i hi => by
      have := hall (i + 1) (by omega)
      have e2 : n + (i + 1) = n + 1 + i := by omega
      rwa [e2] at this)
    rw [this]
    have e3 : n + 1 + k = n + (k + 1) := by omega
    rw [e3]

theorem seqsOf_length (cap : Nat) (ps : List Packet) : (seqsOf cap ps).length = cap := by
  induction ps with
  | nil => simp [seqsOf]
  | cons p ps ih => simp [seqsOf, ih]

theorem slotsOf_length (cap : Nat) (ps : List Packet) : (slotsOf cap ps).length = cap := by
  induction ps with
  | nil => simp [slotsOf]
  | cons p ps ih => simp [slotsOf, ih]

theorem seqsOf_getElem? (cap : Nat) (ps : List Packet) (i : Nat) (hi : i < cap) :
    (seqsOf cap ps)[i]? = some (heldSeq cap ps i) := by
  induction ps with
  | nil => simp [seqsOf, heldSeq, List.getElem?_replicate, hi]
  | cons p ps ih =>
    simp only [seqsOf, heldSeq, List.getElem?_set, seqsOf_length]
    by_cases h : p.SequenceNumber % cap = i
    · simp [h, hi]
    · simp [h, ih]

theorem slotsOf_getElem? (cap : Nat) (ps : List Packet) (i : Nat) (hi : i < cap) :
    (slotsOf cap ps)[i]? = some (heldPacket cap ps i) := by
  induction ps with
  | nil => simp [slotsOf, heldPacket, List.getElem?_replicate, hi]
  | cons p ps ih =>
    simp only [slotsOf, heldPacket, List.getElem?_set, slotsOf_length]
    by_cases h : p.SequenceNumber % cap = i
    · simp [h, hi]
    · simp [h, ih]

theorem NewJitter_eq (cap clockrate : Nat) :
    NewJitter cap clockrate = bufState cap clockrate [] 0 0 0 0 := rfl

theorem Add_bufState (cap clockrate : Nat) (stored : List Packet)
    (count ns lt nt : Nat) (p : Packet) (hcap : cap ≠ 0) :
    (bufState cap clockrate stored count ns lt nt).Add p
      = .ok (bufState cap clockrate (p :: stored) ((count + 1) % U32)
          (if count = 0 then (p.SequenceNumber + (U16 - 1)) % U16 else ns) p.Timestamp
          (if count = 0 then p.Timestamp else nt)) := by
  have h : p.SequenceNumber % cap < cap := Nat.mod_lt _ (Nat.pos_of_ne_zero hcap)
  simp [RTPJitter.Add, bufState, hcap, slotsOf_length, seqsOf_length, h, slotsOf, seqsOf]

theorem loopBody_bufState (cap clockrate : Nat) (stored : List Packet)
    (count ns lt nt n : Nat) (out : List Packet) (hcap : cap ≠ 0) :
    loopBody { self := bufState cap clockrate stored count ns lt nt, nextSeq := n, out := out }
      = if heldSeq cap stored (n % cap) ≠ n then
          (if budget clockrate < (lt + U32 - nt) % U32 then
            .next { self := bufState cap clockrate stored count ns lt nt
                    nextSeq := (n + 1) % U16, out := out }
          else .leave (bufState cap clockrate stored count ns lt nt) out)
        else
          match heldPacket cap stored (n % cap) with
          | none => .crash .nilDereference
          | some p =>
            .next { self := bufState cap clockrate stored count n lt p.Timestamp
                    nextSeq := (n + 1) % U16, out := out ++ [p] } := by
  have h : n % cap < cap := Nat.mod_lt _ (Nat.pos_of_ne_zero hcap)
  simp only [loopBody, bufState, hcap, if_false, seqsOf_getElem? cap stored _ h,
    slotsOf_getElem? cap stored _ h, RTPJitter.waitExceeded, budget]
  by_cases h1 : heldSeq cap stored (n % cap) = n
  · simp only [h1, ne_eq, not_true_eq_false, if_false]
    cases heldPacket cap stored (n % cap) <;> rfl
  · simp [h1]

theorem pushAll_cons_ok (fuel : Nat) (j j1 j2 : RTPJitter) (p : Packet) (ps o1 o2 : List Packet)
    (h1 : j.push fuel p = some (.ok (j1, o1)))
    (h2 : j1.pushAll fuel ps = some (.ok (j2, o2))) :
    j.pushAll fuel (p :: ps) = some (.ok (j2, o1 ++ o2)) := by
  simp [RTPJitter.pushAll, h1, h2]

theorem pushAll_cons_fault (fuel : Nat) (j j1 : RTPJitter) (p : Packet) (ps o1 : List Packet)
    (f : Fault) (h1 : j.push fuel p = some (.ok (j1, o1)))
    (h2 : j1.pushAll fuel ps = some (.fault f)) :
    j.pushAll fuel (p :: ps) = some (.fault f) := by
  simp [RTPJitter.pushAll, h1, h2]

theorem pushAll_cons_none (fuel : Nat) (j j1 : RTPJitter) (p : Packet) (ps o1 : List Packet)
    (h1 : j.push fuel p = some (.ok (j1, o1)))
    (h2 : j1.pushAll fuel ps = none) :
    j.pushAll fuel (p :: ps) = none := by
  simp [RTPJitter.pushAll, h1, h2]

theorem loopRun_diverges (Inv : LoopState → Prop)
    (hstep : ∀ s, Inv s → ∃ s', loopBody s = .next s' ∧ Inv s') :
    ∀ (fuel : Nat) (s : LoopState), Inv s → loopRun fuel s = none := by
  intro fuel
  induction fuel with
  | zero => intro s _; rfl
  | succ n ih =>
    intro s hs
    obtain ⟨s', h1, h2⟩ := hstep s hs
    rw [loopRun_next n s s' h1]
    exact ih s' h2

/-! ## Slot safety and wraparound -/

/-- C9: on the video buffer, storing one packet with sequence number 65535 and
polling makes `GetOrdered` release it and then treat the never written slot 0
(recorded sequence number 0, nil pointer) as holding sequence number 0: the
read of the timestamp is a nil pointer dereference. -/
theorem C9_nil_slot_read (k : Nat) :
    videoJitter.pushAll (2 + k) [w65535] = some (.fault .nilDereference) :=
  pushAll_mono 2 k _ _ _ (by decide)

/-- C4: the run 65534, 65535, 0, 1 stored in that order in the video buffer.
With one poll after each `Add` the second poll dereferences the nil pointer of
slot 0; with a single poll after all four `Add`s the four packets come out in
the wrapped order. -/
theorem C4_wraparound_polls (k : Nat) :
    videoJitter.pushAll (2 + k) [w65534, w65535, w0, w1] = some (.fault .nilDereference)
    ∧ ∃ j, videoJitter.addAll [w65534, w65535, w0, w1] = .ok j
        ∧ j.GetOrdered (5 + k)
          = some (.ok (bufState 512 90000 [w1, w0, w65535, w65534] 4 1 9000 9000,
              [w65534, w65535, w0, w1])) :=
  ⟨pushAll_mono 2 k _ _ _ (by decide),
   bufState 512 90000 [w1, w0, w65535, w65534] 4 65533 9000 0, by decide,
   GetOrdered_mono 5 k _ _ (by decide)⟩

/-! ## The spec scenario -/

/-- C5, as stated, fails: on the video buffer the arrivals (5,0), (3,3000),
(4,6000), (6,9000), polled after each arrival, never produce the output
3, 4, 5, 6, whatever the step budget. -/
theorem C5_scenario_not_3456 :
    ¬ ∃ fuel j, videoJitter.pushAll fuel [s5, s3, s4, s6] = some (.ok (j, [s3, s4, s5, s6])) := by
  rintro ⟨fuel, j, h⟩
  have h1 := pushAll_mono fuel 2 _ _ _ h
  have h2 : videoJitter.pushAll 2 [s5, s3, s4, s6]
      = some (.ok (bufState 512 90000 [s6, s4, s3, s5] 4 6 9000 9000, [s5, s6])) := by decide
  have h3 := pushAll_mono 2 fuel _ _ _ h2
  rw [Nat.add_comm 2 fuel, h1] at h3
  simp only [Option.some.injEq, Outcome.ok.injEq, Prod.mk.injEq] at h3
  exact absurd h3.2 (by decide)

/-- C5, amended: on the video buffer the arrivals (5,0), (3,3000), (4,6000),
(6,9000) release exactly the packets 5 and 6, in that order, and a further poll
releases nothing; this holds with one poll after each arrival and with a single
poll after all arrivals.  The packets 3 and 4 stay in the buffer unreleased. -/
theorem C5_scenario_releases_5_6 (k : Nat) :
    videoJitter.pushAll (2 + k) [s5, s3, s4, s6]
      = some (.ok (bufState 512 90000 [s6, s4, s3, s5] 4 6 9000 9000, [s5, s6]))
    ∧ (bufState 512 90000 [s6, s4, s3, s5] 4 6 9000 9000).GetOrdered (1 + k)
      = some (.ok (bufState 512 90000 [s6, s4, s3, s5] 4 6 9000 9000, []))
    ∧ videoJitter.addAll [s5, s3, s4, s6]
      = .ok (bufState 512 90000 [s6, s4, s3, s5] 4 4 9000 0)
    ∧ (bufState 512 90000 [s6, s4, s3, s5] 4 4 9000 0).GetOrdered (3 + k)
      = some (.ok (bufState 512 90000 [s6, s4, s3, s5] 4 6 9000 9000, [s5, s6])) :=
  ⟨pushAll_mono 2 k _ _ _ (by decide), GetOrdered_mono 1 k _ _ (by decide), by decide,
   GetOrdered_mono 3 k _ _ (by decide)⟩

/-! ## Duplicate emission and divergence -/

theorem dup_skip (i : Nat) (hi : i < 65530) :
    ∃ held, (bufState 512 90000 [f2, f4, f0] 3 4 6000 12000).packetsSeqs[(5 + i) % 512]?
      = some held ∧ held ≠ 5 + i := by
  have h : (5 + i) % 512 < 512 := Nat.mod_lt _ (by norm_num)
  simp only [bufState, seqsOf_getElem? 512 _ _ h, heldSeq, f0, f2, f4, mkPacket]
  refine ⟨_, rfl, ?_⟩
  split_ifs <;> omega

theorem dup_third_poll (k : Nat) :
    (bufState 512 90000 [f4, f0] 2 4 12000 12000).push (65533 + k) f2
      = some (.ok (bufState 512 90000 [f2, f4, f0] 3 0 6000 0, [f0])) := by
  have hadd : (bufState 512 90000 [f4, f0] 2 4 12000 12000).Add f2
      = .ok (bufState 512 90000 [f2, f4, f0] 3 4 6000 12000) := by decide
  have hskip := loopRun_skip (bufState 512 90000 [f2, f4, f0] 3 4 6000 12000) []
    (by decide) (by decide) 65530 5 (3 + k) (by decide) dup_skip
  have e : 65533 + k = 3 + k + 65530 := by omega
  have h1 : loopBody { self := bufState 512 90000 [f2, f4, f0] 3 4 6000 12000
                       nextSeq := 65535, out := [] }
      = .next { self := bufState 512 90000 [f2, f4, f0] 3 4 6000 12000
                nextSeq := 0, out := [] } := by decide
  have h2 : loopBody { self := bufState 512 90000 [f2, f4, f0] 3 4 6000 12000
                       nextSeq := 0, out := [] }
      = .next { self := bufState 512 90000 [f2, f4, f0] 3 0 6000 0
                nextSeq := 1, out := [f0] } := by decide
  have h3 : loopBody { self := bufState 512 90000 [f2, f4, f0] 3 0 6000 0
                       nextSeq := 1, out := [f0] }
      = .leave (bufState 512 90000 [f2, f4, f0] 3 0 6000 0) [f0] := by decide
  have hg : (bufState 512 90000 [f2, f4, f0] 3 4 6000 12000).GetOrdered (65533 + k)
      = loopRun (3 + k + 65530)
          { self := bufState 512 90000 [f2, f4, f0] 3 4 6000 12000, nextSeq := 5, out := [] } := by
    rw [e]; rfl
  have e2 : 3 + k = (k + 2) + 1 := by omega
  have e3 : (5 : Nat) + 65530 = 65535 := by norm_num
  simp only [RTPJitter.push, hadd]
  rw [hg, hskip, e3, e2, loopRun_next _ _ _ h1, loopRun_next _ _ _ h2,
    loopRun_leave _ _ _ _ h3]

/-- C2: on the video buffer the arrivals (0,0), (4,12000), (2,6000), each with
distinct sequence number and polled after each arrival, make `GetOrdered`
return sequence number 0 twice: the polls return [0], [4] and [0]. -/
theorem C2_duplicate_emission (k : Nat) :
    videoJitter.pushAll (65533 + k) [f0, f4, f2]
      = some (.ok (bufState 512 90000 [f2, f4, f0] 3 0 6000 0, [f0, f4, f0])) := by
  have e : 65533 + k = 5 + (65528 + k) := by omega
  have h1 : videoJitter.push (65533 + k) f0
      = some (.ok (bufState 512 90000 [f0] 1 0 0 0, [f0])) := by
    rw [e]; exact push_mono 5 _ _ _ _ (by decide)
  have h2 : (bufState 512 90000 [f0] 1 0 0 0).push (65533 + k) f4
      = some (.ok (bufState 512 90000 [f4, f0] 2 4 12000 12000, [f4])) := by
    rw [e]; exact push_mono 5 _ _ _ _ (by decide)
  exact pushAll_cons_ok _ _ _ _ _ _ _ _ h1
    (pushAll_cons_ok _ _ _ _ _ _ _ _ h2
      (pushAll_cons_ok _ _ _ _ _ _ _ _ (dup_third_poll k) rfl))

theorem spinning_step (s : LoopState) (h : spinning s) :
    ∃ s', loopBody s = .next s' ∧ spinning s' := by
  obtain ⟨j, n, out⟩ := s
  obtain ⟨hn, ns, nt, hj, hc⟩ := h
  simp only at hn hj hc
  subst hj
  rw [loopBody_bufState _ _ _ _ _ _ _ _ _ (by decide)]
  rcases hc with ⟨rfl, rfl⟩ | ⟨rfl, rfl⟩ | ⟨h1, h2, rfl⟩
  · exact ⟨{ self := bufState 512 90000 [f1, f2, f0] 3 1 3000 3000, nextSeq := 2,
             out := out ++ [f1] }, rfl, by norm_num, 1, 3000, rfl, Or.inr (Or.inl ⟨rfl, rfl⟩)⟩
  · exact ⟨{ self := bufState 512 90000 [f1, f2, f0] 3 2 3000 6000, nextSeq := 3,
             out := out ++ [f2] }, rfl, by norm_num, 2, 6000, rfl,
             Or.inr (Or.inr ⟨by norm_num, by norm_num, rfl⟩)⟩
  · by_cases h0 : n = 0
    · subst h0
      exact ⟨{ self := bufState 512 90000 [f1, f2, f0] 3 0 3000 0, nextSeq := 1,
               out := out ++ [f0] }, rfl, by norm_num, 0, 0, rfl, Or.inl ⟨rfl, rfl⟩⟩
    · have hne : heldSeq 512 [f1, f2, f0] (n % 512) ≠ n := by
        simp only [heldSeq, f0, f1, f2, mkPacket]
        split_ifs <;> omega
      have hw : budget 90000 < (3000 + U32 - 6000) % U32 := by decide
      rw [if_pos hne, if_pos hw]
      refine ⟨_, rfl, ?_, ns, 6000, rfl, Or.inr (Or.inr ⟨?_, ?_, rfl⟩)⟩
      · exact Nat.mod_lt _ (by decide)
      · simp only [U16]; omega
      · simp only [U16]; omega

/-- C10: on the video buffer, after the arrivals (0,0) and (2,6000), each
followed by a poll, and the arrival (1,3000), the loop of `GetOrdered` never
leaves: for every step budget the poll is still running, so the whole run of
three arrivals never completes. -/
theorem C10_poll_never_returns :
    videoJitter.pushAll 2 [f0, f2]
      = some (.ok (bufState 512 90000 [f2, f0] 2 0 6000 0, [f0]))
    ∧ (bufState 512 90000 [f2, f0] 2 0 6000 0).Add f1
      = .ok (bufState 512 90000 [f1, f2, f0] 3 0 3000 0)
    ∧ (∀ fuel, (bufState 512 90000 [f1, f2, f0] 3 0 3000 0).GetOrdered fuel = none)
    ∧ ∀ fuel, videoJitter.pushAll fuel [f0, f2, f1] = none := by
  have hspin : ∀ fuel, (bufState 512 90000 [f1, f2, f0] 3 0 3000 0).GetOrdered fuel = none :=
    fun fuel => loopRun_diverges spinning spinning_step fuel _
      ⟨by decide, 0, 0, rfl, Or.inl ⟨rfl, rfl⟩⟩
  have hadd : (bufState 512 90000 [f2, f0] 2 0 6000 0).Add f1
      = .ok (bufState 512 90000 [f1, f2, f0] 3 0 3000 0) := by decide
  have h2 : videoJitter.pushAll 2 [f0, f2]
      = some (.ok (bufState 512 90000 [f2, f0] 2 0 6000 0, [f0])) := by decide
  refine ⟨h2, hadd, hspin, ?_⟩
  intro fuel
  cases hp : videoJitter.pushAll fuel [f0, f2, f1] with
  | none => rfl
  | some r =>
    exfalso
    have h3 := pushAll_mono fuel 2 _ _ _ hp
    have e1 : videoJitter.push (fuel + 2) f0
        = some (.ok (bufState 512 90000 [f0] 1 0 0 0, [f0])) := by
      rw [Nat.add_comm]; exact push_mono 2 fuel _ _ _ (by decide)
    have e2 : (bufState 512 90000 [f0] 1 0 0 0).push (fuel + 2) f2
        = some (.ok (bufState 512 90000 [f2, f0] 2 0 6000 0, [])) := by
      rw [Nat.add_comm]; exact push_mono 2 fuel _ _ _ (by decide)
    have e3 : (bufState 512 90000 [f2, f0] 2 0 6000 0).push (fuel + 2) f1 = none := by
      simp only [RTPJitter.push, hadd]
      exact hspin _
    have e4 : (bufState 512 90000 [f2, f0] 2 0 6000 0).pushAll (fuel + 2) [f1] = none := by
      simp [RTPJitter.pushAll, e3]
    rw [pushAll_cons_none _ _ _ _ _ _ e1 (pushAll_cons_none _ _ _ _ _ _ e2 e4)] at h3
    exact absurd h3 (by simp)

/-! ## Bounded skip -/

theorem loopBody_wait (s : LoopState) (held : Nat) (hcap : s.self.cap ≠ 0)
    (hheld : s.self.packetsSeqs[s.nextSeq % s.self.cap]? = some held)
    (hne : held ≠ s.nextSeq) (hw : s.self.waitExceeded = false) :
    loopBody s = .leave s.self s.out := by
  simp [loopBody, hcap, hheld, hne, hw]

theorem loopBody_release (s : LoopState) (p : Packet) (hcap : s.self.cap ≠ 0)
    (hheld : s.self.packetsSeqs[s.nextSeq % s.self.cap]? = some s.nextSeq)
    (hp : s.self.packets[s.nextSeq % s.self.cap]? = some (some p)) :
    loopBody s = .next
      { self := { s.self with nextTime := p.Timestamp, nextSeqNum := s.nextSeq }
        nextSeq := (s.nextSeq + 1) % U16
        out := s.out ++ [p] } := by
  simp [loopBody, hcap, hheld, hp]

/-- A slot that does not hold `q` still does not hold `q` after a different
sequence number was stored anywhere in the buffer. -/
theorem not_held_after_set (l : List Nat) (i a v q : Nat) (hi : i < l.length)
    (hq : l[i]? ≠ some q) (hv : v ≠ q) :
    ∃ held, (l.set a v)[i]? = some held ∧ held ≠ q := by
  rw [List.getElem?_set]
  by_cases h : a = i
  · subst h
    simp only [if_true, hi]
    exact ⟨v, rfl, hv⟩
  · simp only [h, if_false]
    rw [List.getElem?_eq_getElem hi] at hq ⊢
    exact ⟨l[i], rfl, fun e => hq (by rw [e])⟩

/-- C3, as stated, fails: on the video buffer, 10 is released with timestamp
0, 11 is never added, 13 is waiting in the buffer, and 12 arrives with
timestamp 12000 (more than the budget of 9000 after 0).  The next poll skips 11
and releases 12 and also 13, and it leaves `nextSeqNum` at 13, not at 12. -/
theorem C3_leaves_past_successor :
    videoJitter.pushAll 2 [g10, g13]
      = some (.ok (bufState 512 90000 [g13, g10] 2 10 9000 0, [g10]))
    ∧ budget 90000 < (g12.Timestamp + U32 - (bufState 512 90000 [g13, g10] 2 10 9000 0).nextTime) % U32
    ∧ (bufState 512 90000 [g13, g10] 2 10 9000 0).push 4 g12
      = some (.ok (bufState 512 90000 [g12, g13, g10] 3 13 12000 9000, [g12, g13]))
    ∧ (bufState 512 90000 [g12, g13, g10] 3 13 12000 9000).nextSeqNum ≠ 12 := by
  decide

/-- C3, amended: let the buffer have released `s` last (`nextSeqNum = s`,
`nextTime = t0`), let the slot of `s+1` not hold `s+1` and the slot of `s+3`
not hold `s+3`, and let the packet `s+2` arrive with timestamp `t2`.  If the
`uint32` difference `t2 - t0` exceeds `maxWaitTime*clockInMS`, the next poll
skips `s+1`, returns exactly the packet `s+2` and leaves `nextSeqNum = s+2`;
otherwise it returns nothing and leaves `nextSeqNum = s`. -/
theorem C3_bounded_skip (j : RTPJitter) (p : Packet) (k : Nat)
    (hcap : 0 < j.cap) (hlen1 : j.packets.length = j.cap)
    (hlen2 : j.packetsSeqs.length = j.cap) (hcount : j.packetsCount ≠ 0)
    (hp : p.SequenceNumber = (j.nextSeqNum + 2) % U16)
    (hmiss : j.packetsSeqs[((j.nextSeqNum + 1) % U16) % j.cap]? ≠ some ((j.nextSeqNum + 1) % U16))
    (hafter : j.packetsSeqs[((j.nextSeqNum + 3) % U16) % j.cap]? ≠ some ((j.nextSeqNum + 3) % U16)) :
    ∃ j1, j.Add p = .ok j1 ∧ j1.nextSeqNum = j.nextSeqNum ∧ j1.nextTime = j.nextTime ∧
      if (j.maxWaitTime * j.clockInMS) % U32 < (p.Timestamp + U32 - j.nextTime) % U32 then
        j.push (3 + k) p
          = some (.ok ({ j1 with nextTime := p.Timestamp, nextSeqNum := (j.nextSeqNum + 2) % U16 }, [p]))
      else
        j.push (3 + k) p = some (.ok (j1, [])) := by
  have hc : j.cap ≠ 0 := by omega
  have hidx : p.SequenceNumber % j.cap < j.cap := Nat.mod_lt _ hcap
  have hadd : j.Add p = .ok { j with
      packets := j.packets.set (p.SequenceNumber % j.cap) (some p)
      packetsSeqs := j.packetsSeqs.set (p.SequenceNumber % j.cap) p.SequenceNumber
      lastTime := p.Timestamp
      packetsCount := (j.packetsCount + 1) % U32 } := by
    simp [RTPJitter.Add, hc, hlen1, hlen2, hidx, hcount]
  refine ⟨_, hadd, rfl, rfl, ?_⟩
  have hi1 : ((j.nextSeqNum + 1) % U16) % j.cap < j.packetsSeqs.length := by
    rw [hlen2]; exact Nat.mod_lt _ hcap
  have hi3 : ((j.nextSeqNum + 3) % U16) % j.cap < j.packetsSeqs.length := by
    rw [hlen2]; exact Nat.mod_lt _ hcap
  have hv1 : p.SequenceNumber ≠ (j.nextSeqNum + 1) % U16 := by
    rw [hp]; simp only [U16]; omega
  have hv3 : p.SequenceNumber ≠ (j.nextSeqNum + 3) % U16 := by
    rw [hp]; simp only [U16]; omega
  obtain ⟨held1, hh1, hn1⟩ := not_held_after_set j.packetsSeqs _
    (p.SequenceNumber % j.cap) p.SequenceNumber _ hi1 hmiss hv1
  obtain ⟨held3, hh3, hn3⟩ := not_held_after_set j.packetsSeqs _
    (p.SequenceNumber % j.cap) p.SequenceNumber _ hi3 hafter hv3
  have e : 3 + k = (k + 1 + 1) + 1 := by omega
  simp only [RTPJitter.push, hadd, RTPJitter.GetOrdered]
  split_ifs with hw
  · have s1 := loopBody_skip
      { self := { j with
          packets := j.packets.set (p.SequenceNumber % j.cap) (some p)
          packetsSeqs := j.packetsSeqs.set (p.SequenceNumber % j.cap) p.SequenceNumber
          lastTime := p.Timestamp
          packetsCount := (j.packetsCount + 1) % U32 }
        nextSeq := (j.nextSeqNum + 1) % U16, out := [] } held1 hc hh1 hn1
      (by simpa [RTPJitter.waitExceeded] using hw)
    have e2 : ((j.nextSeqNum + 1) % U16 + 1) % U16 = p.SequenceNumber := by
      rw [hp]; simp only [U16]; omega
    simp only [e2] at s1
    have s2 := loopBody_release
      { self := { j with
          packets := j.packets.set (p.SequenceNumber % j.cap) (some p)
          packetsSeqs := j.packetsSeqs.set (p.SequenceNumber % j.cap) p.SequenceNumber
          lastTime := p.Timestamp
          packetsCount := (j.packetsCount + 1) % U32 }
        nextSeq := p.SequenceNumber, out := [] } p hc
      (by simp [List.getElem?_set, hlen2, hidx])
      (by simp [List.getElem?_set, hlen1, hidx])
    have e3 : (p.SequenceNumber + 1) % U16 = (j.nextSeqNum + 3) % U16 := by
      rw [hp]; simp only [U16]; omega
    simp only [e3, List.nil_append] at s2
    have s3 := loopBody_wait
      { self := { j with
          packets := j.packets.set (p.SequenceNumber % j.cap) (some p)
          packetsSeqs := j.packetsSeqs.set (p.SequenceNumber % j.cap) p.SequenceNumber
          lastTime := p.Timestamp
          packetsCount := (j.packetsCount + 1) % U32
          nextTime := p.Timestamp
          nextSeqNum := p.SequenceNumber }
        nextSeq := (j.nextSeqNum + 3) % U16, out := [p] } held3 hc hh3 hn3
      (by simp [RTPJitter.waitExceeded, U32])
    rw [e, loopRun_next _ _ _ s1, loopRun_next _ _ _ s2, loopRun_leave _ _ _ _ s3, hp]
  · have s1 := loopBody_wait
      { self := { j with
          packets := j.packets.set (p.SequenceNumber % j.cap) (some p)
          packetsSeqs := j.packetsSeqs.set (p.SequenceNumber % j.cap) p.SequenceNumber
          lastTime := p.Timestamp
          packetsCount := (j.packetsCount + 1) % U32 }
        nextSeq := (j.nextSeqNum + 1) % U16, out := [] } held1 hc hh1 hn1
      (by simpa [RTPJitter.waitExceeded] using hw)
    rw [e, loopRun_leave _ _ _ _ s1]

/-- C3, amended, at a concrete input: the video buffer has released 10 with
timestamp 0, and 12 arrives with timestamp 12000. -/
theorem C3_bounded_skip_witness :
    ∃ j1, (bufState 512 90000 [g10] 1 10 0 0).Add g12 = .ok j1
      ∧ j1.nextSeqNum = (bufState 512 90000 [g10] 1 10 0 0).nextSeqNum
      ∧ j1.nextTime = (bufState 512 90000 [g10] 1 10 0 0).nextTime
      ∧ if ((bufState 512 90000 [g10] 1 10 0 0).maxWaitTime
              * (bufState 512 90000 [g10] 1 10 0 0).clockInMS) % U32
            < (g12.Timestamp + U32 - (bufState 512 90000 [g10] 1 10 0 0).nextTime) % U32 then
          (bufState 512 90000 [g10] 1 10 0 0).push (3 + 0) g12
            = some (.ok ({ j1 with
                nextTime := g12.Timestamp
                nextSeqNum := ((bufState 512 90000 [g10] 1 10 0 0).nextSeqNum + 2) % U16 }, [g12]))
        else
          (bufState 512 90000 [g10] 1 10 0 0).push (3 + 0) g12 = some (.ok (j1, [])) :=
  C3_bounded_skip (bufState 512 90000 [g10] 1 10 0 0) g12 0 (by decide)
    (slotsOf_length _ _) (seqsOf_length _ _) (by decide) (by decide) (by decide) (by decide)

/-! ## Reorder correctness -/

theorem mod_inj_window (cap s N a b : Nat) (hN : N ≤ cap)
    (ha : s ≤ a ∧ a < s + N) (hb : s ≤ b ∧ b < s + N) (h : a % cap = b % cap) : a = b := by
  rcases Nat.le_total a b with hab | hab
  · have h0 := Nat.sub_mod_eq_zero_of_mod_eq h.symm
    rw [Nat.mod_eq_of_lt (by omega)] at h0
    omega
  · have h0 := Nat.sub_mod_eq_zero_of_mod_eq h
    rw [Nat.mod_eq_of_lt (by omega)] at h0
    omega

theorem held_of_mem (cap : Nat) (stored : List Packet) (p : Packet) (hp : p ∈ stored)
    (hal : ∀ q ∈ stored, q.SequenceNumber % cap = p.SequenceNumber % cap → q = p) :
    heldSeq cap stored (p.SequenceNumber % cap) = p.SequenceNumber
    ∧ heldPacket cap stored (p.SequenceNumber % cap) = some p := by
  induction stored with
  | nil => simp at hp
  | cons q qs ih =>
    simp only [heldSeq, heldPacket]
    by_cases hq : q.SequenceNumber % cap = p.SequenceNumber % cap
    · have := hal q (List.mem_cons_self _ _) hq
      subst this
      simp
    · simp only [hq, if_false]
      rcases List.mem_cons.mp hp with rfl | hmem
      · exact absurd rfl hq
      · exact ih hmem (fun r hr => hal r (List.mem_cons_of_mem _ hr))

theorem held_zero_or_mem (cap : Nat) (stored : List Packet) (i : Nat) :
    heldSeq cap stored i = 0 ∨ ∃ q ∈ stored, heldSeq cap stored i = q.SequenceNumber := by
  induction stored with
  | nil => exact Or.inl rfl
  | cons q qs ih =>
    simp only [heldSeq]
    by_cases hq : q.SequenceNumber % cap = i
    · exact Or.inr ⟨q, List.mem_cons_self _ _, by simp [hq]⟩
    · simp only [hq, if_false]
      rcases ih with h | ⟨r, hr, h⟩
      · exact Or.inl h
      · exact Or.inr ⟨r, List.mem_cons_of_mem _ hr, h⟩

theorem InWindow.held (cap s N : Nat) (stored : List Packet) (hw : InWindow cap s N stored)
    (p : Packet) (hp : p ∈ stored) :
    heldSeq cap stored (p.SequenceNumber % cap) = p.SequenceNumber
    ∧ heldPacket cap stored (p.SequenceNumber % cap) = some p := by
  obtain ⟨_, hN, _, hwin, hnd⟩ := hw
  refine held_of_mem cap stored p hp (fun q hq hmod => ?_)
  exact List.inj_on_of_nodup_map hnd hq hp
    (mod_inj_window cap s N _ _ hN (hwin q hq) (hwin p hp) hmod)

theorem not_held_of_not_mem (cap : Nat) (stored : List Packet) (n : Nat) (hn0 : n ≠ 0)
    (hn : n ∉ stored.map Packet.SequenceNumber) :
    heldSeq cap stored (n % cap) ≠ n := by
  rcases held_zero_or_mem cap stored (n % cap) with h | ⟨q, hq, h⟩
  · rw [h]
    exact fun h0 => hn0 h0.symm
  · rw [h]
    intro h0
    exact hn (h0 ▸ List.mem_map_of_mem Packet.SequenceNumber hq)

/-- One poll on a buffer whose stored packets lie in the window: starting at
`s + m`, the loop releases the stored packets `s + m, s + m + 1, ...` up to the
first sequence number that is not stored and leaves there. -/
theorem loop_in_window (cap clockrate s N : Nat) (stored : List Packet) (count lt : Nat)
    (hw : InWindow cap s N stored) (hs : s ∈ stored.map Packet.SequenceNumber)
    (hwait : ∀ r ∈ stored, (lt + U32 - r.Timestamp) % U32 ≤ budget clockrate) :
    ∀ (fuel m ns nt : Nat) (out : List Packet),
      (ns + 1) % U16 = s + m → m ≤ N → N - m < fuel →
      (∃ r ∈ stored, nt = r.Timestamp) →
      ∃ ns' nt' rel,
        loopRun fuel { self := bufState cap clockrate stored count ns lt nt
                       nextSeq := s + m, out := out }
          = some (.ok (bufState cap clockrate stored count ns' lt nt', out ++ rel))
        ∧ (ns' + 1) % U16 = s + (m + rel.length)
        ∧ m + rel.length ≤ N
        ∧ rel.map Packet.SequenceNumber = List.range' (s + m) rel.length
        ∧ (∀ x ∈ rel, x ∈ stored)
        ∧ s + (m + rel.length) ∉ stored.map Packet.SequenceNumber
        ∧ ∃ r ∈ stored, nt' = r.Timestamp := by
  intro fuel
  induction fuel with
  | zero => intro m ns nt out _ _ h; omega
  | succ fuel ih =>
    intro m ns nt out hns hm hfuel hnt
    have hcap : cap ≠ 0 := hw.1
    by_cases hmem : s + m ∈ stored.map Packet.SequenceNumber
    · obtain ⟨p, hp, hps⟩ := List.mem_map.mp hmem
      have hheld := InWindow.held cap s N stored hw p hp
      rw [hps] at hheld
      have hlt : m < N := by have := (hw.2.2.2.1 p hp).2; omega
      have h16 : (s + m + 1) % U16 = s + (m + 1) := by
        have := hw.2.2.1
        simp only [U16]; omega
      have hb : loopBody { self := bufState cap clockrate stored count ns lt nt
                           nextSeq := s + m, out := out }
          = .next { self := bufState cap clockrate stored count (s + m) lt p.Timestamp
                    nextSeq := s + (m + 1), out := out ++ [p] } := by
        rw [loopBody_bufState _ _ _ _ _ _ _ _ _ hcap, hheld.1, hheld.2, h16]
        simp
      obtain ⟨ns', nt', rel, h1, h2, h3, h4, h5, h6, h7⟩ :=
        ih (m + 1) (s + m) p.Timestamp (out ++ [p]) h16 (by omega) (by omega) ⟨p, hp, rfl⟩
      refine ⟨ns', nt', p :: rel, ?_, ?_, ?_, ?_, ?_, ?_, h7⟩
      · rw [loopRun_next _ _ _ hb, h1]
        simp
      · simp only [List.length_cons]
        rw [h2]; omega
      · simp only [List.length_cons]; omega
      · simp only [List.map_cons, List.length_cons, List.range'_succ, hps, h4]
        rw [show s + m + 1 = s + (m + 1) by omega]
      · intro x hx
        rcases List.mem_cons.mp hx with rfl | hx
        · exact hp
        · exact h5 x hx
      · simp only [List.length_cons]
        rw [show s + (m + (rel.length + 1)) = s + (m + 1 + rel.length) by omega]
        exact h6
    · have hm0 : s + m ≠ 0 := by
        intro h0
        apply hmem
        have : m = 0 := by omega
        subst this
        simpa using hs
      have hne := not_held_of_not_mem cap stored (s + m) hm0 hmem
      obtain ⟨r, hr, hrt⟩ := hnt
      have hnw : ¬ budget clockrate < (lt + U32 - nt) % U32 := by
        rw [hrt]; exact Nat.not_lt.mpr (hwait r hr)
      have hb : loopBody { self := bufState cap clockrate stored count ns lt nt
                           nextSeq := s + m, out := out }
          = .leave (bufState cap clockrate stored count ns lt nt) out := by
        rw [loopBody_bufState _ _ _ _ _ _ _ _ _ hcap, if_pos hne, if_neg hnw]
      refine ⟨ns, nt, [], ?_, ?_, ?_, ?_, ?_, ?_, ⟨r, hr, hrt⟩⟩
      · rw [loopRun_leave _ _ _ _ hb]; simp
      · simpa using hns
      · simpa using hm
      · simp
      · simp
      · simpa using hmem

theorem InWindow.stored (cap s N : Nat) (stored todo : List Packet)
    (hw : InWindow cap s N (stored.reverse ++ todo)) : InWindow cap s N stored := by
  obtain ⟨h1, h2, h3, h4, h5⟩ := hw
  refine ⟨h1, h2, h3, fun p hp => h4 p (by simp [hp]), ?_⟩
  rw [List.map_append] at h5
  have := h5.of_append_left
  rw [List.map_reverse] at this
  exact List.nodup_reverse.mp this

/-- Feeding the remaining packets of a run, polling after each: the polls
release the stored run in sequence order, without a fault. -/
theorem pushAll_in_window (cap clockrate s N fuel : Nat) (hfuel : N < fuel) :
    ∀ (todo stored : List Packet) (ns lt nt : Nat) (rel : List Packet),
      stored ≠ [] →
      InWindow cap s N (stored.reverse ++ todo) →
      s ∈ stored.map Packet.SequenceNumber →
      stored.length + todo.length ≤ N →
      (stored.reverse ++ todo).Pairwise (withinBudget clockrate) →
      (ns + 1) % U16 = s + rel.length →
      rel.length ≤ N →
      rel.map Packet.SequenceNumber = List.range' s rel.length →
      (∀ x ∈ rel, x ∈ stored) →
      s + rel.length ∉ stored.map Packet.SequenceNumber →
      (∃ r ∈ stored, nt = r.Timestamp) →
      ∃ j out,
        (bufState cap clockrate stored stored.length ns lt nt).pushAll fuel todo
          = some (.ok (j, out))
        ∧ (rel ++ out).map Packet.SequenceNumber = List.range' s (rel ++ out).length
        ∧ (∀ x ∈ rel ++ out, x ∈ stored.reverse ++ todo)
        ∧ s + (rel ++ out).length ∉ (stored.reverse ++ todo).map Packet.SequenceNumber := by
  intro todo
  induction todo with
  | nil =>
    intro stored ns lt nt rel _ _ _ _ _ _ _ hmap hsub hnot _
    refine ⟨_, [], rfl, ?_, ?_, ?_⟩
    · simpa using hmap
    · simpa using hsub
    · simpa using hnot
  | cons p todo ih =>
    intro stored ns lt nt rel hne hw hs hlen hts hns hrel hmap hsub _ hnt
    have e : stored.reverse ++ p :: todo = (p :: stored).reverse ++ todo := by simp
    have hw' : InWindow cap s N ((p :: stored).reverse ++ todo) := e ▸ hw
    have hwp : InWindow cap s N (p :: stored) := InWindow.stored cap s N _ todo hw'
    have hcap : cap ≠ 0 := hw.1
    have hl0 : stored.length ≠ 0 := fun h => hne (List.length_eq_zero.mp h)
    have h65 := hw.2.2.1
    have hcount : (stored.length + 1) % U32 = (p :: stored).length := by
      simp only [List.length_cons, U32] at hlen ⊢
      omega
    have hadd := Add_bufState cap clockrate stored stored.length ns lt nt p hcap
    rw [if_neg hl0, if_neg hl0, hcount] at hadd
    have hwait : ∀ r ∈ p :: stored,
        (p.Timestamp + U32 - r.Timestamp) % U32 ≤ budget clockrate := by
      intro r hr
      rcases List.mem_cons.mp hr with rfl | hr
      · simp [U32]
      · exact (List.pairwise_append.mp hts).2.2 r (by simp [hr]) p (List.mem_cons_self _ _)
    obtain ⟨r0, hr0, hr0t⟩ := hnt
    obtain ⟨ns', nt', rel', h1, h2, h3, h4, h5, h6, h7⟩ :=
      loop_in_window cap clockrate s N (p :: stored) (p :: stored).length p.Timestamp hwp
        (by simp only [List.map_cons]; exact List.mem_cons_of_mem _ hs) hwait
        fuel rel.length ns nt [] hns hrel (by omega) ⟨r0, List.mem_cons_of_mem _ hr0, hr0t⟩
    have hpush : (bufState cap clockrate stored stored.length ns lt nt).push fuel p
        = some (.ok (bufState cap clockrate (p :: stored) (p :: stored).length ns'
            p.Timestamp nt', rel')) := by
      simp only [RTPJitter.push, hadd]
      have : (bufState cap clockrate (p :: stored) (p :: stored).length ns p.Timestamp
          nt).GetOrdered fuel
          = loopRun fuel { self := bufState cap clockrate (p :: stored) (p :: stored).length
                             ns p.Timestamp nt
                           nextSeq := (ns + 1) % U16, out := [] } := rfl
      rw [this, hns, h1]
      simp
    obtain ⟨j, out, g1, g2, g3, g4⟩ := ih (p :: stored) ns' p.Timestamp nt' (rel ++ rel')
      (by simp) hw' (by simp only [List.map_cons]; exact List.mem_cons_of_mem _ hs)
      (by simp only [List.length_cons] at hlen ⊢; omega) (e ▸ hts)
      (by rw [List.length_append]; exact h2) (by rw [List.length_append]; exact h3)
      (by
        rw [List.map_append, hmap, h4, List.length_append, List.range'_append_1,
          Nat.add_comm])
      (by
        intro x hx
        rcases List.mem_append.mp hx with hx | hx
        · exact List.mem_cons_of_mem _ (hsub x hx)
        · exact h5 x hx)
      (by rw [List.length_append]; exact h6) h7
    refine ⟨j, rel' ++ out, pushAll_cons_ok _ _ _ _ _ _ _ _ hpush g1, ?_, ?_, ?_⟩
    · rw [← List.append_assoc]; exact g2
    · rw [← List.append_assoc, e]; exact g3
    · rw [← List.append_assoc, e]; exact g4

/-- The first insert fixes the start of the output: the two packets 2 and 1 of
one frame (equal timestamps), delivered in the order 2, 1 to the fresh video
buffer and polled after each `Add`, come out as [2] and [], never as 1, 2. -/
theorem first_arrival_anchors_output :
    videoJitter.pushAll 2 [c2, c1] = some (.ok (bufState 512 90000 [c1, c2] 2 2 0 0, [c2]))
    ∧ ¬ ∃ fuel j, videoJitter.pushAll fuel [c2, c1] = some (.ok (j, [c1, c2])) := by
  have h2 : videoJitter.pushAll 2 [c2, c1]
      = some (.ok (bufState 512 90000 [c1, c2] 2 2 0 0, [c2])) := by decide
  refine ⟨h2, ?_⟩
  rintro ⟨fuel, j, h⟩
  have h1 := pushAll_mono fuel 2 _ _ _ h
  have h3 := pushAll_mono 2 fuel _ _ _ h2
  rw [Nat.add_comm 2 fuel, h1] at h3
  simp only [Option.some.injEq, Outcome.ok.injEq, Prod.mk.injEq] at h3
  exact absurd h3.2 (by decide)

/-- Where the reorder buffer does sort: let the packets carry the consecutive
sequence numbers `s, ..., s+N-1` (no wrap: `s + N ≤ 65535`, and `N ≤ cap`),
each exactly once, let the packet `s` arrive first and the others in any order,
and let every packet's timestamp be at most the wait budget after (in `uint32`
arithmetic) that of every packet that arrived before it.  Then feeding them to
a fresh buffer with one poll after each `Add` raises no fault, every poll
returns, and the concatenated output is the same packets, each exactly once, in
increasing sequence-number order. -/
theorem reorder_consecutive_run (cap clockrate s : Nat) (first : Packet)
    (rest : List Packet) (k : Nat)
    (hfirst : first.SequenceNumber = s)
    (hperm : ((first :: rest).map Packet.SequenceNumber).Perm
      (List.range' s (rest.length + 1)))
    (hcap : rest.length + 1 ≤ cap)
    (hwrap : s + (rest.length + 1) ≤ 65535)
    (hts : (first :: rest).Pairwise (withinBudget clockrate)) :
    ∃ j out,
      (NewJitter cap clockrate).pushAll (rest.length + 2 + k) (first :: rest)
        = some (.ok (j, out))
      ∧ out.Perm (first :: rest)
      ∧ out.map Packet.SequenceNumber = List.range' s (rest.length + 1) := by
  have hc : cap ≠ 0 := by omega
  have hnd : ((first :: rest).map Packet.SequenceNumber).Nodup :=
    hperm.nodup_iff.mpr (List.nodup_range' s _)
  have hwin : ∀ p ∈ first :: rest,
      s ≤ p.SequenceNumber ∧ p.SequenceNumber < s + (rest.length + 1) := by
    intro p hp
    have := hperm.subset (List.mem_map_of_mem Packet.SequenceNumber hp)
    simpa using this
  have hw : InWindow cap s (rest.length + 1) ([first].reverse ++ rest) :=
    ⟨hc, hcap, hwrap, hwin, hnd⟩
  have hw1 : InWindow cap s (rest.length + 1) [first] := InWindow.stored _ _ _ _ rest hw
  have hs1 : s ∈ [first].map Packet.SequenceNumber := by simp [hfirst]
  have hadd := Add_bufState cap clockrate [] 0 0 0 0 first hc
  rw [if_pos rfl, if_pos rfl, show (0 + 1) % U32 = [first].length from rfl] at hadd
  have hns : ((first.SequenceNumber + (U16 - 1)) % U16 + 1) % U16 = s + ([] : List Packet).length := by
    rw [hfirst]; simp only [U16, List.length_nil]; omega
  obtain ⟨ns', nt', rel, h1, h2, h3, h4, h5, h6, h7⟩ :=
    loop_in_window cap clockrate s (rest.length + 1) [first] [first].length first.Timestamp
      hw1 hs1 (by intro r hr; rw [List.mem_singleton.mp hr]; simp [U32])
      (rest.length + 2 + k) 0 ((first.SequenceNumber + (U16 - 1)) % U16) first.Timestamp []
      hns (by omega) (by omega) ⟨first, List.mem_singleton_self _, rfl⟩
  have hpush : (NewJitter cap clockrate).push (rest.length + 2 + k) first
      = some (.ok (bufState cap clockrate [first] [first].length ns' first.Timestamp nt',
          rel)) := by
    rw [NewJitter_eq]
    simp only [RTPJitter.push, hadd]
    have : (bufState cap clockrate [first] [first].length
        ((first.SequenceNumber + (U16 - 1)) % U16) first.Timestamp
        first.Timestamp).GetOrdered (rest.length + 2 + k)
        = loopRun (rest.length + 2 + k)
            { self := bufState cap clockrate [first] [first].length
                ((first.SequenceNumber + (U16 - 1)) % U16) first.Timestamp first.Timestamp
              nextSeq := ((first.SequenceNumber + (U16 - 1)) % U16 + 1) % U16, out := [] } := rfl
    rw [this, hns, List.length_nil, h1]
    simp
  simp only [Nat.zero_add] at h2 h3 h4 h6
  obtain ⟨j, out, g1, g2, g3, g4⟩ :=
    pushAll_in_window cap clockrate s (rest.length + 1) (rest.length + 2 + k) (by omega)
      rest [first] ns' first.Timestamp nt' rel (by simp) hw hs1
      (by simp only [List.length_singleton]; omega) hts h2 h3
      (by simpa using h4) h5 h6 h7
  have hall : [first].reverse ++ rest = first :: rest := by simp
  rw [hall] at g3 g4
  -- the number of released packets is exactly the length of the run
  have hle : (rel ++ out).length ≤ rest.length + 1 := by
    by_contra hgt
    have hmem : s + (rest.length + 1) ∈ (rel ++ out).map Packet.SequenceNumber := by
      rw [g2]; simp only [List.mem_range'_1]; omega
    obtain ⟨x, hx, hxs⟩ := List.mem_map.mp hmem
    have := (hwin x (g3 x hx)).2
    omega
  have hge : rest.length + 1 ≤ (rel ++ out).length := by
    by_contra hlt
    apply g4
    apply hperm.symm.subset
    simp only [List.mem_range'_1]; omega
  have hlen : (rel ++ out).length = rest.length + 1 := by omega
  refine ⟨j, rel ++ out, pushAll_cons_ok _ _ _ _ _ _ _ _ hpush g1, ?_, ?_⟩
  · have hnd2 : (rel ++ out).Nodup := by
      apply List.Nodup.of_map Packet.SequenceNumber
      rw [g2]; exact List.nodup_range' s _
    exact (List.subperm_of_subset hnd2 g3).perm_of_length_le (by simp [hlen])
  · rw [g2, hlen]

/-- The sorting result at a concrete input: the packets 10, 12, 11 arrive in
that order at the fresh video buffer with growing timestamps 0, 1000, 2000. -/
theorem reorder_consecutive_run_example :
    ∃ j out,
      (NewJitter 512 90000).pushAll (2 + 2 + 0) (r10 :: [r12, r11]) = some (.ok (j, out))
      ∧ out.Perm (r10 :: [r12, r11])
      ∧ out.map Packet.SequenceNumber = List.range' 10 (2 + 1) :=
  reorder_consecutive_run 512 90000 10 r10 [r12, r11] 0 rfl (by decide) (by decide)
    (by decide) (by simp [withinBudget, budget, U32, r10, r11, r12, mkPacket])

theorem reorder_skip (i : Nat) (hi : i < 65522) :
    ∃ held, (bufState 512 90000 [e11, e12, e10] 3 12 3000 6000).packetsSeqs[(13 + i) % 512]?
      = some held ∧ held ≠ 13 + i := by
  have h : (13 + i) % 512 < 512 := Nat.mod_lt _ (by norm_num)
  simp only [bufState, seqsOf_getElem? 512 _ _ h, heldSeq, e10, e11, e12, mkPacket]
  refine ⟨_, rfl, ?_⟩
  split_ifs <;> omega

theorem reorder_release_two (fuel : Nat) :
    loopRun (fuel + 1 + 1)
        { self := bufState 512 90000 [e11, e12, e10] 3 10 3000 0, nextSeq := 11, out := [] }
      = loopRun fuel
          { self := bufState 512 90000 [e11, e12, e10] 3 12 3000 6000
            nextSeq := 13, out := [e11, e12] } := by
  have h1 : loopBody { self := bufState 512 90000 [e11, e12, e10] 3 10 3000 0
                       nextSeq := 11, out := [] }
      = .next { self := bufState 512 90000 [e11, e12, e10] 3 11 3000 3000
                nextSeq := 12, out := [e11] } := by decide
  have h2 : loopBody { self := bufState 512 90000 [e11, e12, e10] 3 11 3000 3000
                       nextSeq := 12, out := [e11] }
      = .next { self := bufState 512 90000 [e11, e12, e10] 3 12 3000 6000
                nextSeq := 13, out := [e11, e12] } := by decide
  rw [loopRun_next (fuel + 1) _ _ h1, loopRun_next fuel _ _ h2]

theorem reorder_wrap_crash (fuel : Nat) :
    loopRun (fuel + 1 + 1)
        { self := bufState 512 90000 [e11, e12, e10] 3 12 3000 6000
          nextSeq := 65535, out := [e11, e12] }
      = some (.fault .nilDereference) := by
  have h3 : loopBody { self := bufState 512 90000 [e11, e12, e10] 3 12 3000 6000
                       nextSeq := 65535, out := [e11, e12] }
      = .next { self := bufState 512 90000 [e11, e12, e10] 3 12 3000 6000
                nextSeq := 0, out := [e11, e12] } := by decide
  have h4 : loopBody { self := bufState 512 90000 [e11, e12, e10] 3 12 3000 6000
                       nextSeq := 0, out := [e11, e12] }
      = .crash .nilDereference := by decide
  rw [loopRun_next (fuel + 1) _ _ h3, loopRun_crash fuel _ _ h4]

theorem reorder_third_poll (k : Nat) :
    (bufState 512 90000 [e12, e10] 2 10 6000 0).push (65526 + k) e11
      = some (.fault .nilDereference) := by
  have hadd : (bufState 512 90000 [e12, e10] 2 10 6000 0).Add e11
      = .ok (bufState 512 90000 [e11, e12, e10] 3 10 3000 0) := by decide
  have hskip := loopRun_skip (bufState 512 90000 [e11, e12, e10] 3 12 3000 6000) [e11, e12]
    (by decide) (by decide) 65522 13 (k + 1 + 1) (by decide) reorder_skip
  have hg : (bufState 512 90000 [e11, e12, e10] 3 10 3000 0).GetOrdered (65526 + k)
      = loopRun ((k + 1 + 1 + 65522) + 1 + 1)
          { self := bufState 512 90000 [e11, e12, e10] 3 10 3000 0, nextSeq := 11, out := [] } := by
    rw [show 65526 + k = (k + 1 + 1 + 65522) + 1 + 1 by omega]; rfl
  have e3 : (13 : Nat) + 65522 = 65535 := by norm_num
  simp only [RTPJitter.push, hadd]
  rw [hg, reorder_release_two (k + 1 + 1 + 65522), hskip, e3, reorder_wrap_crash k]

/-- C1: the three packets 10, 11, 12 with timestamps 0, 3000, 6000 (all within
the budget of 9000 of each other), delivered to the fresh video buffer in the
order 10, 12, 11 with one poll after each `Add`.  The third poll releases 11 and
12 inside the loop, then the `uint32` difference 3000 - 6000 wraps and exceeds
the budget, every missing number from 13 to 65535 is skipped, `nextSeq` wraps
to 0 and the never written slot 0 is read: the poll ends in a nil pointer
dereference instead of returning, so the output 10, 11, 12 is never
produced, for any step budget. -/
theorem C1_reorder_faults (k : Nat) :
    videoJitter.pushAll (65526 + k) [e10, e12, e11] = some (.fault .nilDereference)
    ∧ ¬ ∃ j out, videoJitter.pushAll k [e10, e12, e11] = some (.ok (j, out)) := by
  have hfault : ∀ m, videoJitter.pushAll (65526 + m) [e10, e12, e11]
      = some (.fault .nilDereference) := by
    intro m
    have e : 65526 + m = 2 + (65524 + m) := by omega
    have p1 : videoJitter.push (65526 + m) e10
        = some (.ok (bufState 512 90000 [e10] 1 10 0 0, [e10])) := by
      rw [e]; exact push_mono 2 _ _ _ _ (by decide)
    have p2 : (bufState 512 90000 [e10] 1 10 0 0).push (65526 + m) e12
        = some (.ok (bufState 512 90000 [e12, e10] 2 10 6000 0, [])) := by
      rw [e]; exact push_mono 2 _ _ _ _ (by decide)
    have p3 : (bufState 512 90000 [e12, e10] 2 10 6000 0).pushAll (65526 + m) [e11]
        = some (.fault .nilDereference) := by
      simp [RTPJitter.pushAll, reorder_third_poll m]
    exact pushAll_cons_fault _ _ _ _ _ _ _ p1 (pushAll_cons_fault _ _ _ _ _ _ _ p2 p3)
  refine ⟨hfault k, ?_⟩
  rintro ⟨j, out, h⟩
  have h1 := pushAll_mono k 65526 _ _ _ h
  rw [Nat.add_comm k 65526, hfault k] at h1
  exact absurd h1 (by simp)

/-! ## Reassembly -/

theorem addPackets_append {U : Type} (Unmarshal : U → List Nat → List Nat × U)
    (xs ys : List Packet) (d : RTPDepacketizer U) :
    d.addPackets Unmarshal (xs ++ ys)
      = (((d.addPackets Unmarshal xs).1.addPackets Unmarshal ys).1,
         (d.addPackets Unmarshal xs).2 ++ ((d.addPackets Unmarshal xs).1.addPackets Unmarshal ys).2) := by
  induction xs generalizing d with
  | nil => simp [RTPDepacketizer.addPackets]
  | cons x xs ih => simp [RTPDepacketizer.addPackets, ih]

theorem unwrapAll_append {U : Type} (Unmarshal : U → List Nat → List Nat × U)
    (xs ys : List Packet) (u : U) :
    unwrapAll Unmarshal u (xs ++ ys)
      = ((unwrapAll Unmarshal u xs).1 ++ (unwrapAll Unmarshal (unwrapAll Unmarshal u xs).2 ys).1,
         (unwrapAll Unmarshal (unwrapAll Unmarshal u xs).2 ys).2) := by
  induction xs generalizing u with
  | nil => simp [unwrapAll]
  | cons x xs ih => simp [unwrapAll, ih]

/-- Packets without marker that share the timestamp `t` return nothing and
extend the accumulator for `t` by their unwrapped payloads. -/
theorem addPackets_body {U : Type} (Unmarshal : U → List Nat → List Nat × U) (t : Nat)
    (body : List Packet) (d : RTPDepacketizer U)
    (h : ∀ p ∈ body, p.Marker = false ∧ p.Timestamp = t) :
    (d.addPackets Unmarshal body).2 = List.replicate body.length none
    ∧ (d.addPackets Unmarshal body).1.startFrame t
        = d.startFrame t ++ (unwrapAll Unmarshal d.h264Unmarshal body).1
    ∧ (d.addPackets Unmarshal body).1.h264Unmarshal
        = (unwrapAll Unmarshal d.h264Unmarshal body).2 := by
  induction body generalizing d with
  | nil => simp [RTPDepacketizer.addPackets, unwrapAll]
  | cons p ps ih =>
    obtain ⟨hm, ht⟩ := h p (List.mem_cons_self _ _)
    have hrest := ih (d.AddPacket Unmarshal p).1 (fun q hq => h q (List.mem_cons_of_mem _ hq))
    have h1 : d.AddPacket Unmarshal p
        = ({ frame := d.startFrame t ++ (Unmarshal d.h264Unmarshal p.Payload).1
             timestamp := t
             h264Unmarshal := (Unmarshal d.h264Unmarshal p.Payload).2 }, none) := by
      simp [RTPDepacketizer.AddPacket, RTPDepacketizer.startFrame, hm, ht]
    rw [h1] at hrest
    simp only [RTPDepacketizer.addPackets, unwrapAll, h1, List.length_cons,
      List.replicate_succ]
    refine ⟨by rw [hrest.1], ?_, hrest.2.2⟩
    rw [hrest.2.1]
    simp [RTPDepacketizer.startFrame]

/-- A well-formed group returns one unit, on its marker packet. -/
theorem addPackets_group {U : Type} (Unmarshal : U → List Nat → List Nat × U)
    (g : Group) (d : RTPDepacketizer U) (h : g.WellFormed) :
    (d.addPackets Unmarshal g.packets).2
        = List.replicate g.body.length none
          ++ [some (d.startFrame g.last.Timestamp
                ++ (unwrapAll Unmarshal d.h264Unmarshal g.packets).1, g.last.Timestamp)]
    ∧ (d.addPackets Unmarshal g.packets).1.timestamp = g.last.Timestamp
    ∧ (d.addPackets Unmarshal g.packets).1.h264Unmarshal
        = (unwrapAll Unmarshal d.h264Unmarshal g.packets).2 := by
  obtain ⟨hm, hb⟩ := h
  obtain ⟨b1, b2, b3⟩ := addPackets_body Unmarshal g.last.Timestamp g.body d hb
  simp only [Group.packets, addPackets_append, unwrapAll_append, b1]
  simp only [RTPDepacketizer.addPackets, RTPDepacketizer.AddPacket, unwrapAll, hm, b3,
    List.append_nil]
  simp only [RTPDepacketizer.startFrame] at b2
  simp [b2, List.append_assoc, RTPDepacketizer.startFrame]

theorem addPackets_groups {U : Type} (Unmarshal : U → List Nat → List Nat × U)
    (groups : List Group) (d : RTPDepacketizer U)
    (hwf : ∀ g ∈ groups, g.WellFormed)
    (hchain : groups.Chain' (fun g h => g.last.Timestamp ≠ h.last.Timestamp))
    (hstart : ∀ g ∈ groups.head?, d.startFrame g.last.Timestamp = []) :
    (d.addPackets Unmarshal (groups.flatMap Group.packets)).2
      = expectedUnits Unmarshal d.h264Unmarshal groups := by
  induction groups generalizing d with
  | nil => simp [RTPDepacketizer.addPackets, expectedUnits]
  | cons g gs ih =>
    obtain ⟨g1, g2, g3⟩ := addPackets_group Unmarshal g d (hwf g (List.mem_cons_self _ _))
    have hs : d.startFrame g.last.Timestamp = [] := hstart g (by simp)
    have hrest := ih (d.addPackets Unmarshal g.packets).1
      (fun h hh => hwf h (List.mem_cons_of_mem _ hh)) (List.Chain'.tail hchain)
      (by
        intro h hh
        have hne : g.last.Timestamp ≠ h.last.Timestamp := by
          cases gs with
          | nil => simp at hh
          | cons h0 hs0 =>
            simp only [List.head?_cons, Option.mem_def, Option.some.injEq] at hh
            subst hh
            exact (List.chain'_cons.mp hchain).1
        simp [RTPDepacketizer.startFrame, g2, hne])
    simp only [List.flatMap_cons, addPackets_append, expectedUnits, g1, hs, List.nil_append,
      hrest, g3]

theorem expectedUnits_count {U : Type} (Unmarshal : U → List Nat → List Nat × U)
    (groups : List Group) (u : U) :
    ((expectedUnits Unmarshal u groups).filterMap id).length = groups.length := by
  induction groups generalizing u with
  | nil => simp [expectedUnits]
  | cons g gs ih =>
    simp [expectedUnits, List.filterMap_append, ih]

/-- C6, as stated, fails.  Two marker-terminated one-packet groups with the
same timestamp: the second returned unit still starts with the bytes of the
first, because the accumulator is cleared on a timestamp change and not after a
marker.  And a group whose first packet has an older timestamp than its marker
packet returns only the bytes of the packets with the marker's timestamp. -/
theorem C6_units_mix_groups :
    ((NewDepacketizer ()).addPackets prefixStartCode
        (sameStampGroups.flatMap Group.packets)).2
      = [some ([0, 0, 0, 1, 101], 3000), some ([0, 0, 0, 1, 101, 0, 0, 0, 1, 102], 3000)]
    ∧ expectedUnits prefixStartCode () sameStampGroups
      = [some ([0, 0, 0, 1, 101], 3000), some ([0, 0, 0, 1, 102], 3000)]
    ∧ ((NewDepacketizer ()).addPackets prefixStartCode
        (mixedStampGroups.flatMap Group.packets)).2
      = [none, some ([0, 0, 0, 1, 102], 6000)]
    ∧ expectedUnits prefixStartCode () mixedStampGroups
      = [none, some ([0, 0, 0, 1, 101, 0, 0, 0, 1, 102], 6000)] := by
  decide

/-- C6, amended: let the packets form `K` consecutive groups, each ending with
its only marker packet, let all packets of a group carry the same timestamp
and let consecutive groups carry different timestamps.  Fed to a fresh
depacketizer, `AddPacket` returns nothing on the packets without marker and on
each marker packet the concatenation, in arrival order, of the unwrapped
payloads of that group only, with the group's timestamp: `K` units in all. -/
theorem C6_reassembly {U : Type} (Unmarshal : U → List Nat → List Nat × U) (u0 : U)
    (groups : List Group)
    (hwf : ∀ g ∈ groups, g.WellFormed)
    (hchain : groups.Chain' (fun g h => g.last.Timestamp ≠ h.last.Timestamp)) :
    ((NewDepacketizer u0).addPackets Unmarshal (groups.flatMap Group.packets)).2
      = expectedUnits Unmarshal u0 groups
    ∧ (((NewDepacketizer u0).addPackets Unmarshal
          (groups.flatMap Group.packets)).2.filterMap id).length = groups.length := by
  have h := addPackets_groups Unmarshal groups (NewDepacketizer u0) hwf hchain
    (by intro g _; simp [RTPDepacketizer.startFrame, NewDepacketizer])
  exact ⟨h, by rw [h]; exact expectedUnits_count Unmarshal groups _⟩

/-- C6, amended, at a concrete input: two frames of two packets each. -/
theorem C6_reassembly_witness :
    ((NewDepacketizer ()).addPackets prefixStartCode (twoFrames.flatMap Group.packets)).2
      = expectedUnits prefixStartCode () twoFrames
    ∧ (((NewDepacketizer ()).addPackets prefixStartCode
          (twoFrames.flatMap Group.packets)).2.filterMap id).length = twoFrames.length :=
  C6_reassembly prefixStartCode () twoFrames
    (by simp [twoFrames, Group.WellFormed, mkMarker, mkFragment])
    (by simp [twoFrames, mkMarker])

/-! ## Video packetizer -/

theorem naluEffect_config_of_not_parameterSet (L : H264Lib) (st : UnitLoop L) (n : List Nat)
    (h : isParameterSet L n = false) : (naluEffect L st n).config = st.config := by
  simp only [isParameterSet, Bool.or_eq_false_iff, decide_eq_false_iff_not] at h
  simp only [naluEffect, h.1, h.2, if_false]
  split_ifs <;> rfl

theorem naluEffect_pps (L : H264Lib) (st : UnitLoop L) (n : List Nat)
    (h : L.NALUType n = NALU_PPS) :
    naluEffect L st n
      = { st with config := { H264 := L.AddSPSPPS st.config.H264 n
                              Data := L.ToConfig (L.AddSPSPPS st.config.H264 n) } } := by
  simp [naluEffect, h, NALU_PPS, NALU_SPS]

theorem naluEffect_idr (L : H264Lib) (st : UnitLoop L) (n : List Nat)
    (h : L.NALUType n = NALU_IDR) :
    naluEffect L st n
      = { st with written := st.written ++ [st.config.packet]
                  nalus_ := st.nalus_ ++ [n]
                  keyframe := true } := by
  simp [naluEffect, h, NALU_PPS, NALU_SPS, NALU_IDR]

/-- What the loop over the NAL units of one access unit computes. -/
theorem foldl_naluEffect (L : H264Lib) (nalus : List (List Nat)) (st : UnitLoop L) :
    (nalus.foldl (naluEffect L) st).config.H264 = addParameterSets L st.config.H264 nalus
    ∧ (nalus.foldl (naluEffect L) st).nalus_ = st.nalus_ ++ nalus.filter (isSlice L)
    ∧ (nalus.foldl (naluEffect L) st).keyframe
        = (match (nalus.filter (isSlice L)).getLast? with
           | none => st.keyframe
           | some l => decide (L.NALUType l = NALU_IDR))
    ∧ ∃ ws, (nalus.foldl (naluEffect L) st).written = st.written ++ ws
        ∧ (∀ w ∈ ws, w.PktType = .H264DecoderConfig)
        ∧ ws.length = (nalus.filter (fun n => decide (L.NALUType n = NALU_IDR))).length := by
  induction nalus using List.reverseRecOn with
  | nil => simp [addParameterSets]
  | append_singleton ns n ih =>
    obtain ⟨h1, h2, h3, ws, h4, h5, h6⟩ := ih
    simp only [List.foldl_append, List.foldl_cons, List.foldl_nil, List.filter_append,
      addParameterSets]
    by_cases t7 : L.NALUType n = NALU_SPS
    · have e : naluEffect L (ns.foldl (naluEffect L) st) n
          = { ns.foldl (naluEffect L) st with
              config := { (ns.foldl (naluEffect L) st).config with
                H264 := L.AddSPSPPS (ns.foldl (naluEffect L) st).config.H264 n } } := by
        simp [naluEffect, t7]
      have t : L.NALUType n = 7 := t7
      rw [e]
      refine ⟨?_, ?_, ?_, ws, ?_, h5, ?_⟩
      · simp [isParameterSet, t7, h1, addParameterSets, List.foldl_append]
      · simp [isSlice, t, NALU_IDR, NALU_NONIDR, h2]
      · simp [isSlice, t, NALU_IDR, NALU_NONIDR, h3]
      · simpa using h4
      · simp [t, NALU_IDR, h6]
    · by_cases t8 : L.NALUType n = NALU_PPS
      · have t : L.NALUType n = 8 := t8
        rw [naluEffect_pps L _ n t8]
        refine ⟨?_, ?_, ?_, ws, ?_, h5, ?_⟩
        · simp [isParameterSet, t8, h1, addParameterSets, List.foldl_append]
        · simp [isSlice, t, NALU_IDR, NALU_NONIDR, h2]
        · simp [isSlice, t, NALU_IDR, NALU_NONIDR, h3]
        · simpa using h4
        · simp [t, NALU_IDR, h6]
      · by_cases t5 : L.NALUType n = NALU_IDR
        · have t : L.NALUType n = 5 := t5
          rw [naluEffect_idr L _ n t5]
          refine ⟨?_, ?_, ?_, ws ++ [(ns.foldl (naluEffect L) st).config.packet], ?_, ?_, ?_⟩
          · simp [isParameterSet, t, NALU_SPS, NALU_PPS, h1, addParameterSets]
          · simp [isSlice, t5, h2]
          · simp [isSlice, t5]
          · simp [h4]
          · intro w hw
            rcases List.mem_append.mp hw with hw | hw
            · exact h5 w hw
            · rw [List.mem_singleton.mp hw]; rfl
          · simp [t5, h6]
        · by_cases t1 : L.NALUType n = NALU_NONIDR
          · have t : L.NALUType n = 1 := t1
            have e : naluEffect L (ns.foldl (naluEffect L) st) n
                = { ns.foldl (naluEffect L) st with
                    nalus_ := (ns.foldl (naluEffect L) st).nalus_ ++ [n], keyframe := false } := by
              simp [naluEffect, t, NALU_SPS, NALU_PPS, NALU_IDR, NALU_NONIDR]
            rw [e]
            refine ⟨?_, ?_, ?_, ws, ?_, h5, ?_⟩
            · simp [isParameterSet, t, NALU_SPS, NALU_PPS, h1, addParameterSets]
            · simp [isSlice, t1, h2]
            · simp [isSlice, t, NALU_IDR, NALU_NONIDR]
            · simpa using h4
            · simp [t, NALU_IDR, h6]
          · have e : naluEffect L (ns.foldl (naluEffect L) st) n = ns.foldl (naluEffect L) st := by
              simp [naluEffect, t7, t8, t5, t1]
            rw [e]
            refine ⟨?_, ?_, ?_, ws, h4, h5, ?_⟩
            · simp [isParameterSet, t7, t8, h1, addParameterSets]
            · simp [isSlice, t5, t1, h2]
            · simp [isSlice, t5, t1, h3]
            · simp [t5, h6]

theorem foldl_naluEffect_config (L : H264Lib) (nalus : List (List Nat)) (st : UnitLoop L)
    (h : ∀ n ∈ nalus, isParameterSet L n = false) :
    (nalus.foldl (naluEffect L) st).config = st.config := by
  induction nalus generalizing st with
  | nil => rfl
  | cons n ns ih =>
    rw [List.foldl_cons, ih _ (fun m hm => h m (List.mem_cons_of_mem _ hm)),
      naluEffect_config_of_not_parameterSet L st n (h n (List.mem_cons_self _ _))]

theorem naluStep_of_fit (L : H264Lib) (st : UnitLoop L) (n : List Nat)
    (h : L.NALUType n = NALU_PPS →
      (L.ToConfig (L.AddSPSPPS st.config.H264 n)).length ≤ configBufferSize) :
    naluStep L st n = .ok (naluEffect L st n) := by
  unfold naluStep naluEffect
  by_cases t8 : L.NALUType n = NALU_PPS
  · have t : L.NALUType n = 8 := t8
    simp [t, NALU_SPS, NALU_PPS, h t8]
  · split_ifs <;> rfl

theorem naluEffect_codec (L : H264Lib) (st : UnitLoop L) (n : List Nat) :
    (naluEffect L st n).config.H264
      = if isParameterSet L n then L.AddSPSPPS st.config.H264 n else st.config.H264 := by
  unfold naluEffect isParameterSet
  by_cases t7 : L.NALUType n = NALU_SPS
  · simp [t7]
  · by_cases t8 : L.NALUType n = NALU_PPS
    · have t : L.NALUType n = 8 := t8
      simp [t, NALU_SPS, NALU_PPS]
    · simp only [t7, t8, if_false, decide_False, Bool.or_self, Bool.false_eq_true]
      split_ifs <;> rfl

/-- A unit whose records fit the buffer is processed without a panic. -/
theorem runUnit_of_fit (L : H264Lib) (nalus : List (List Nat)) (st : UnitLoop L)
    (h : recordsFit L st.config.H264 nalus = true) :
    runUnit L st nalus = (nalus.foldl (naluEffect L) st, none) := by
  induction nalus generalizing st with
  | nil => rfl
  | cons n ns ih =>
    have hstep : naluStep L st n = .ok (naluEffect L st n) := by
      apply naluStep_of_fit
      intro t8
      have t : L.NALUType n = 8 := t8
      simp only [recordsFit, t, NALU_SPS, NALU_PPS] at h
      simp at h
      exact h.1
    have hrest : recordsFit L (naluEffect L st n).config.H264 ns = true := by
      rw [naluEffect_codec]
      simp only [recordsFit] at h
      by_cases t7 : L.NALUType n = NALU_SPS
      · simpa [isParameterSet, t7] using h
      · by_cases t8 : L.NALUType n = NALU_PPS
        · have t : L.NALUType n = 8 := t8
          simp only [t, NALU_SPS, NALU_PPS] at h
          simp only [Nat.reduceEqDiff, if_false, if_true, Bool.and_eq_true] at h
          simpa [isParameterSet, t, NALU_SPS, NALU_PPS] using h.2
        · simpa [isParameterSet, t7, t8] using h
    simp only [runUnit, hstep, List.foldl_cons]
    exact ih _ hrest

/-- A unit with a record that does not fit the buffer panics. -/
theorem runUnit_of_not_fit (L : H264Lib) (nalus : List (List Nat)) (st : UnitLoop L)
    (h : recordsFit L st.config.H264 nalus = false) :
    (runUnit L st nalus).2 = some .indexOutOfRange := by
  induction nalus generalizing st with
  | nil => simp [recordsFit] at h
  | cons n ns ih =>
    by_cases hfit : L.NALUType n = NALU_PPS →
        (L.ToConfig (L.AddSPSPPS st.config.H264 n)).length ≤ configBufferSize
    · have hstep := naluStep_of_fit L st n hfit
      simp only [runUnit, hstep]
      apply ih
      rw [naluEffect_codec]
      simp only [recordsFit] at h
      by_cases t7 : L.NALUType n = NALU_SPS
      · simpa [isParameterSet, t7] using h
      · by_cases t8 : L.NALUType n = NALU_PPS
        · have t : L.NALUType n = 8 := t8
          have hl := hfit t8
          simp only [t, NALU_SPS, NALU_PPS] at h
          simp only [Nat.reduceEqDiff, if_false, if_true, hl, decide_True, Bool.true_and] at h
          simpa [isParameterSet, t, NALU_SPS, NALU_PPS] using h
        · simpa [isParameterSet, t7, t8] using h
    · have t8 : L.NALUType n = NALU_PPS := by
        by_contra hne; exact hfit (fun h8 => absurd h8 hne)
      have hlen : ¬ (L.ToConfig (L.AddSPSPPS st.config.H264 n)).length ≤ configBufferSize :=
        fun hl => hfit (fun _ => hl)
      have t : L.NALUType n = 8 := t8
      simp [runUnit, naluStep, t, NALU_SPS, NALU_PPS, hlen]

theorem processNALUs_of_fit (L : H264Lib) (config : DecodeConfig L) (nalus : List (List Nat))
    (duration : Nat) (h : recordsFit L config.H264 nalus = true) :
    processNALUs L config nalus duration
      = if (nalus.foldl (naluEffect L)
              { config := config, written := [], nalus_ := [], keyframe := false }).nalus_.length = 0
        then
          .done (nalus.foldl (naluEffect L)
              { config := config, written := [], nalus_ := [], keyframe := false }).config
            (nalus.foldl (naluEffect L)
              { config := config, written := [], nalus_ := [], keyframe := false }).written
        else
          .done (nalus.foldl (naluEffect L)
              { config := config, written := [], nalus_ := [], keyframe := false }).config
            ((nalus.foldl (naluEffect L)
                { config := config, written := [], nalus_ := [], keyframe := false }).written
              ++ [{ PktType := .H264
                    IsKeyFrame := (nalus.foldl (naluEffect L)
                      { config := config, written := [], nalus_ := [], keyframe := false }).keyframe
                    Time := duration, CTime := duration
                    Data := L.FillNALUsAVCC (nalus.foldl (naluEffect L)
                      { config := config, written := [], nalus_ := [], keyframe := false }).nalus_ }]) := by
  simp only [processNALUs,
    runUnit_of_fit L nalus { config := config, written := [], nalus_ := [], keyframe := false } h]

theorem bigPps_type : toyLib.NALUType bigPpsUnit = 8 := rfl

theorem bigPps_overflows (c : toyLib.Codec) :
    ¬ (toyLib.ToConfig (toyLib.AddSPSPPS c bigPpsUnit)).length ≤ configBufferSize := by
  obtain ⟨c1, c2⟩ := c
  show ¬ (c1 ++ bigPpsUnit).length ≤ configBufferSize
  simp only [bigPpsUnit, configBufferSize, List.length_append, List.length_cons,
    List.length_replicate]
  omega

theorem naluStep_bigPps (st : UnitLoop toyLib) :
    naluStep toyLib st bigPpsUnit = .fault .indexOutOfRange := by
  unfold naluStep
  rw [bigPps_type, if_neg (show ¬ (8 = NALU_SPS) by decide),
    if_pos (show 8 = NALU_PPS from rfl), if_neg (bigPps_overflows _)]

/-- C7, as stated, fails for orders other than parameter sets first.  With
the unit IDR, SPS, PPS the configuration packet written for the IDR slice
carries the old (here empty) record; with the unit PPS, SPS, IDR it carries the
record built at the PPS, before the SPS was added.  In neither case is a packet
with the record rebuilt from both parameter sets written.  And for the unit
SPS, PPS, IDR with a PPS of 5001 bytes the record does not fit the 5000-byte
buffer: the unit panics at the PPS and nothing is written. -/
theorem C7_config_is_stale :
    (processNALUs toyLib (newDecodeConfig toyLib) [idrUnit, spsUnit, ppsUnit] 7).written
      = [{ PktType := .H264DecoderConfig, IsKeyFrame := true, Time := 0, CTime := 0, Data := [] },
         { PktType := .H264, IsKeyFrame := true, Time := 7, CTime := 7, Data := [1, 101] }]
    ∧ (processNALUs toyLib (newDecodeConfig toyLib) [ppsUnit, spsUnit, idrUnit] 7).written
      = [{ PktType := .H264DecoderConfig, IsKeyFrame := true, Time := 0, CTime := 0, Data := [104] },
         { PktType := .H264, IsKeyFrame := true, Time := 7, CTime := 7, Data := [1, 101] }]
    ∧ toyLib.ToConfig (addParameterSets toyLib toyLib.NewCodec [idrUnit, spsUnit, ppsUnit])
      = [103, 104]
    ∧ toyLib.ToConfig (addParameterSets toyLib toyLib.NewCodec [ppsUnit, spsUnit, idrUnit])
      = [103, 104]
    ∧ (processNALUs toyLib (newDecodeConfig toyLib) [spsUnit, bigPpsUnit, idrUnit] 7).fault
      = some .indexOutOfRange
    ∧ (processNALUs toyLib (newDecodeConfig toyLib) [spsUnit, bigPpsUnit, idrUnit] 7).written
      = [] := by
  have hsps : naluStep toyLib
      { config := newDecodeConfig toyLib, written := [], nalus_ := [], keyframe := false } spsUnit
      = .ok { config := { H264 := ([103], []), Data := [] }, written := [], nalus_ := []
              keyframe := false } := rfl
  have hbig : processNALUs toyLib (newDecodeConfig toyLib) [spsUnit, bigPpsUnit, idrUnit] 7
      = .panicked [] .indexOutOfRange := by
    simp only [processNALUs, runUnit, hsps, naluStep_bigPps]
  refine ⟨by decide, by decide, by decide, by decide, ?_, ?_⟩
  · rw [hbig]; rfl
  · rw [hbig]; rfl

/-- C7, amended: let the NAL units of an access unit be
`pre ++ [pps] ++ mid ++ [idr] ++ post` where `pps` is a picture parameter set,
`idr` is a key-frame slice, no parameter set follows `pps` in the unit, and
every record the unit rebuilds fits the 5000-byte buffer.  Then the unit is
processed without a panic and the packets written for it are
`ws1 ++ [cfg] ++ ws2 ++ [media]`: `cfg` is the decoder-configuration packet
that carries the record built from the codec after all parameter sets of the
unit were added, `ws2` holds only configuration packets, and `media`, the last
packet written, is the media packet with the slice units of the unit. -/
theorem C7_config_before_keyframe (L : H264Lib) (config : DecodeConfig L)
    (pre mid post : List (List Nat)) (pps idr : List Nat) (duration : Nat)
    (hpps : L.NALUType pps = NALU_PPS) (hidr : L.NALUType idr = NALU_IDR)
    (hmid : ∀ n ∈ mid, isParameterSet L n = false)
    (hpost : ∀ n ∈ post, isParameterSet L n = false)
    (hfit : recordsFit L config.H264 (pre ++ [pps] ++ mid ++ [idr] ++ post) = true) :
    (processNALUs L config (pre ++ [pps] ++ mid ++ [idr] ++ post) duration).fault = none
    ∧ ∃ ws1 ws2 media,
      (processNALUs L config (pre ++ [pps] ++ mid ++ [idr] ++ post) duration).written
        = ws1 ++ [{ PktType := .H264DecoderConfig, IsKeyFrame := true, Time := 0, CTime := 0
                    Data := L.ToConfig (addParameterSets L config.H264
                      (pre ++ [pps] ++ mid ++ [idr] ++ post)) }] ++ ws2 ++ [media]
      ∧ (∀ w ∈ ws2, w.PktType = .H264DecoderConfig)
      ∧ media.PktType = .H264
      ∧ media.Data = L.FillNALUsAVCC ((pre ++ [pps] ++ mid ++ [idr] ++ post).filter (isSlice L)) := by
  let st0 : UnitLoop L := { config := config, written := [], nalus_ := [], keyframe := false }
  let st1 := pre.foldl (naluEffect L) st0
  let st2 := naluEffect L st1 pps
  let st3 := mid.foldl (naluEffect L) st2
  let st4 := naluEffect L st3 idr
  let st5 := post.foldl (naluEffect L) st4
  have hfold : (pre ++ [pps] ++ mid ++ [idr] ++ post).foldl (naluEffect L) st0 = st5 := by
    simp only [List.foldl_append, List.foldl_cons, List.foldl_nil, st5, st4, st3, st2, st1]
  have hidrp : isParameterSet L idr = false := by
    simp [isParameterSet, hidr, NALU_IDR, NALU_SPS, NALU_PPS]
  have c3 : st3.config = st2.config := foldl_naluEffect_config L mid st2 hmid
  have c4 : st4.config = st3.config := naluEffect_config_of_not_parameterSet L st3 idr hidrp
  have c5 : st5.config = st4.config := foldl_naluEffect_config L post st4 hpost
  have e2 : st2.config.Data = L.ToConfig st2.config.H264 := by
    simp only [st2, naluEffect_pps L st1 pps hpps]
  have hall := foldl_naluEffect L (pre ++ [pps] ++ mid ++ [idr] ++ post) st0
  rw [hfold] at hall
  obtain ⟨a1, a2, _, _⟩ := hall
  have hdata : st3.config.Data
      = L.ToConfig (addParameterSets L config.H264 (pre ++ [pps] ++ mid ++ [idr] ++ post)) := by
    rw [← a1, c5, c4, c3, e2]
  obtain ⟨_, _, _, wsb, b1, b2, _⟩ := foldl_naluEffect L post st4
  have w4 : st4.written = st3.written ++ [st3.config.packet] := by
    simp only [st4, naluEffect_idr L st3 idr hidr]
  have hmem : idr ∈ st5.nalus_ := by
    rw [a2]
    exact List.mem_append_right _
      (List.mem_filter.mpr ⟨by simp, by simp [isSlice, hidr]⟩)
  have hne : st5.nalus_.length ≠ 0 :=
    fun h0 => List.not_mem_nil _ (List.length_eq_zero.mp h0 ▸ hmem)
  have hres : processNALUs L config (pre ++ [pps] ++ mid ++ [idr] ++ post) duration
      = .done st5.config
          (st5.written ++ [{ PktType := .H264, IsKeyFrame := st5.keyframe, Time := duration
                             CTime := duration, Data := L.FillNALUsAVCC st5.nalus_ }]) := by
    rw [processNALUs_of_fit L config _ duration hfit, hfold, if_neg hne]
  rw [hres]
  refine ⟨rfl, st3.written, wsb, { PktType := .H264, IsKeyFrame := st5.keyframe, Time := duration
                                   CTime := duration, Data := L.FillNALUsAVCC st5.nalus_ }, ?_, b2, rfl, ?_⟩
  · show st5.written ++ _ = _
    rw [b1, w4, ← hdata]
    rfl
  · show L.FillNALUsAVCC st5.nalus_ = _
    rw [a2]; rfl

/-- C7, amended, at a concrete input: the unit SPS, PPS, IDR on a fresh
recorder. -/
theorem C7_config_before_keyframe_witness :
    (processNALUs toyLib (newDecodeConfig toyLib)
        ([spsUnit] ++ [ppsUnit] ++ [] ++ [idrUnit] ++ []) 7).fault = none
    ∧ ∃ ws1 ws2 media,
      (processNALUs toyLib (newDecodeConfig toyLib)
          ([spsUnit] ++ [ppsUnit] ++ [] ++ [idrUnit] ++ []) 7).written
        = ws1 ++ [{ PktType := .H264DecoderConfig, IsKeyFrame := true, Time := 0, CTime := 0
                    Data := toyLib.ToConfig (addParameterSets toyLib (newDecodeConfig toyLib).H264
                      ([spsUnit] ++ [ppsUnit] ++ [] ++ [idrUnit] ++ [])) }] ++ ws2 ++ [media]
      ∧ (∀ w ∈ ws2, w.PktType = .H264DecoderConfig)
      ∧ media.PktType = .H264
      ∧ media.Data = toyLib.FillNALUsAVCC
          (([spsUnit] ++ [ppsUnit] ++ [] ++ [idrUnit] ++ []).filter (isSlice toyLib)) :=
  C7_config_before_keyframe toyLib (newDecodeConfig toyLib) [spsUnit] [] [] ppsUnit idrUnit 7
    (by decide) (by decide) (by simp) (by simp) (by decide)

/-- C8, as stated, fails on the key-frame flag: for the unit IDR slice,
non-IDR slice the single media packet holds both slices but its key-frame flag
is false, although the unit contains an IDR slice.  And a unit with a slice
whose PPS of 5001 bytes makes the record overflow the 5000-byte buffer panics
at the PPS: no media packet is written for it. -/
theorem C8_flag_follows_last_slice :
    (processNALUs toyLib (newDecodeConfig toyLib) [idrUnit, nonIdrUnit] 7).written
      = [{ PktType := .H264DecoderConfig, IsKeyFrame := true, Time := 0, CTime := 0, Data := [] },
         { PktType := .H264, IsKeyFrame := false, Time := 7, CTime := 7,
           Data := [1, 101, 1, 65] }]
    ∧ toyLib.NALUType idrUnit = NALU_IDR
    ∧ (processNALUs toyLib (newDecodeConfig toyLib) [bigPpsUnit, idrUnit] 7).fault
      = some .indexOutOfRange
    ∧ (processNALUs toyLib (newDecodeConfig toyLib) [bigPpsUnit, idrUnit] 7).written = [] := by
  have hbig : processNALUs toyLib (newDecodeConfig toyLib) [bigPpsUnit, idrUnit] 7
      = .panicked [] .indexOutOfRange := by
    simp only [processNALUs, runUnit, naluStep_bigPps]
  refine ⟨by decide, by decide, ?_, ?_⟩
  · rw [hbig]; rfl
  · rw [hbig]; rfl

/-- C8, amended: for an access unit whose rebuilt records all fit the
5000-byte buffer, processing does not panic and the packets written are one
decoder-configuration packet per IDR slice unit, followed, when the unit has at
least one slice unit, by exactly one media packet that holds all its IDR and
non-IDR slice units in order (every other unit excluded) and whose key-frame
flag is true exactly when the last slice unit of the access unit is an IDR
slice; when the unit has no slice unit nothing is written. -/
theorem C8_media_packet (L : H264Lib) (config : DecodeConfig L) (nalus : List (List Nat))
    (duration : Nat) (hfit : recordsFit L config.H264 nalus = true) :
    (processNALUs L config nalus duration).fault = none
    ∧ ∃ ws, (∀ w ∈ ws, w.PktType = .H264DecoderConfig)
      ∧ ws.length = (nalus.filter (fun n => decide (L.NALUType n = NALU_IDR))).length
      ∧ (processNALUs L config nalus duration).written
          = ws ++ (match (nalus.filter (isSlice L)).getLast? with
                   | none => []
                   | some l =>
                     [{ PktType := .H264, IsKeyFrame := decide (L.NALUType l = NALU_IDR)
                        Time := duration, CTime := duration
                        Data := L.FillNALUsAVCC (nalus.filter (isSlice L)) }]) := by
  obtain ⟨_, h2, h3, ws, h4, h5, h6⟩ := foldl_naluEffect L nalus
    { config := config, written := [], nalus_ := [], keyframe := false }
  simp only [List.nil_append] at h2 h4
  rw [processNALUs_of_fit L config nalus duration hfit, h2, h4]
  cases hl : (nalus.filter (isSlice L)).getLast? with
  | none =>
    have : nalus.filter (isSlice L) = [] := List.getLast?_eq_none_iff.mp hl
    simp only [this, List.length_nil, if_true]
    exact ⟨rfl, ws, h5, h6, by simp [UnitResult.written]⟩
  | some l =>
    have hne : nalus.filter (isSlice L) ≠ [] := by
      intro h0; rw [h0] at hl; simp at hl
    have hlen : (nalus.filter (isSlice L)).length ≠ 0 := fun h0 => hne (List.length_eq_zero.mp h0)
    rw [if_neg hlen, h3, hl]
    exact ⟨rfl, ws, h5, h6, rfl⟩

/-- C8, amended, at a concrete input: the unit SPS, PPS, IDR slice, non-IDR
slice on a fresh recorder. -/
theorem C8_media_packet_witness :
    (processNALUs toyLib (newDecodeConfig toyLib)
        [spsUnit, ppsUnit, idrUnit, nonIdrUnit] 7).fault = none
    ∧ ∃ ws, (∀ w ∈ ws, w.PktType = .H264DecoderConfig)
      ∧ ws.length = ([spsUnit, ppsUnit, idrUnit, nonIdrUnit].filter
          (fun n => decide (toyLib.NALUType n = NALU_IDR))).length
      ∧ (processNALUs toyLib (newDecodeConfig toyLib)
            [spsUnit, ppsUnit, idrUnit, nonIdrUnit] 7).written
          = ws ++ (match ([spsUnit, ppsUnit, idrUnit, nonIdrUnit].filter
                      (isSlice toyLib)).getLast? with
                   | none => []
                   | some l =>
                     [{ PktType := .H264, IsKeyFrame := decide (toyLib.NALUType l = NALU_IDR)
                        Time := 7, CTime := 7
                        Data := toyLib.FillNALUsAVCC
                          ([spsUnit, ppsUnit, idrUnit, nonIdrUnit].filter (isSlice toyLib)) }]) :=
  C8_media_packet toyLib (newDecodeConfig toyLib) [spsUnit, ppsUnit, idrUnit, nonIdrUnit] 7
    (by decide)

end SaveToDisk
